import Mathlib

set_option maxHeartbeats 1000000
set_option maxRecDepth 4000

/-!
Shallow embedding of the ada-mapper core (tools/types_provider.py,
tools/generator.py, tools/arrays.py, tools/enums.py, tools/validation.py)
and proofs about it.

Conventions of the embedding:
 * Python strings are Lean `String`s; every Python string operation used by
   the code (strip, lower, upper, split, substring search, the word-boundary
   regex removals of `_clean_reference`) is re-implemented on `List Char`,
   so every definition evaluates by `decide`/`rfl`/`simp`.
 * Python dicts become association lists.  Where the source builds a dict
   whose later bindings overwrite earlier ones (the `{k.lower(): k ...}`
   lowercase lookup tables), lookups are done from the right
   (`revLookup`), matching the overwrite semantics; dicts read straight
   from the parsed index have unique keys and use plain `List.lookup`.
 * Python `None` becomes `Option.none`; Python truthiness on strings,
   dicts and lists ("" , {}, [] are falsy) is mirrored by explicit
   emptiness tests at exactly the places the source tests truthiness.
 * Unbounded Python recursion (`value_expr`, `default_expr`, the
   alias-chain resolvers, the need-set closure loop) is embedded with an
   explicit fuel argument; `none` (or the untouched input, for the closure
   loop) is returned only when fuel runs out.  Wrappers supply a fuel that
   provably suffices, so the wrappers compute the function the Python code
   computes on every input on which the Python code terminates.
 * The per-instance memo caches (`parsed_to`, `parsed_from_lower`, ...)
   are read-through memoizations of provider results: every read happens
   after the corresponding fill, so the embedding recomputes the cached
   value instead of threading cache state.
-/

namespace AdaMapper

/-- Python `str.isspace` characters relevant to `str.strip()`/`str.split()`. -/
def pyIsSpace (c : Char) : Bool :=
  c = ' ' || c = '\t' || c = '\n' || c = '\r' || c = '\x0b' || c = '\x0c'

/-- Python `s.strip()`. -/
def pyStrip (s : String) : String :=
  (((s.data.dropWhile pyIsSpace).reverse.dropWhile pyIsSpace).reverse).asString

/-- ASCII lower-casing of one character (Python `str.lower` on ASCII input). -/
def charLower (c : Char) : Char :=
  if 'A' ≤ c && c ≤ 'Z' then Char.ofNat (c.toNat + 32) else c

/-- ASCII upper-casing of one character (Python `str.upper` on ASCII input). -/
def charUpper (c : Char) : Char :=
  if 'a' ≤ c && c ≤ 'z' then Char.ofNat (c.toNat - 32) else c

/-- Python `s.lower()`. -/
def pyLower (s : String) : String := (s.data.map charLower).asString

/-- Python `s.upper()`. -/
def pyUpper (s : String) : String := (s.data.map charUpper).asString

/-- Does `pre` start `l`? -/
def listStartsWith : List Char → List Char → Bool
  | [], _ => true
  | _ :: _, [] => false
  | a :: as, b :: bs => a = b && listStartsWith as bs

/-- Does `pre` (already lower-cased) start `l` case-insensitively? -/
def startsWithCI : List Char → List Char → Bool
  | [], _ => true
  | _ :: _, [] => false
  | a :: as, b :: bs => a = charLower b && startsWithCI as bs

/-- Substring test (Python `needle in hay`). -/
def containsSub (needle : List Char) : List Char → Bool
  | [] => needle.isEmpty
  | c :: t => listStartsWith needle (c :: t) || containsSub needle t

/-- The characters of `l` before the first occurrence of `needle`
(Python `s.split(needle, 1)[0]`). -/
def beforeSub (needle : List Char) : List Char → List Char
  | [] => []
  | c :: t => if listStartsWith needle (c :: t) then [] else c :: beforeSub needle t

/-- Python `s.split(c)` (keeps empty parts). -/
def splitOnChar (c : Char) : List Char → List (List Char)
  | [] => [[]]
  | x :: xs =>
    let r := splitOnChar c xs
    if x = c then [] :: r
    else match r with
      | [] => [[x]]
      | h :: t => (x :: h) :: t

/-- Python `s.split(".")` on a string. -/
def pySplitDot (s : String) : List String := (splitOnChar '.' s.data).map List.asString

/-- Python `s.split()` (whitespace runs, no empty parts); accumulator style. -/
def pyWordsAux : List Char → List Char → List (List Char)
  | [], cur => if cur.isEmpty then [] else [cur.reverse]
  | c :: t, cur =>
    if pyIsSpace c then
      if cur.isEmpty then pyWordsAux t [] else cur.reverse :: pyWordsAux t []
    else pyWordsAux t (c :: cur)

/-- Python `" ".join(s.split())`. -/
def collapseWs (s : String) : String :=
  String.intercalate " " ((pyWordsAux s.data []).map List.asString)

/-- Python `\w` (ASCII input). -/
def isWordChar (c : Char) : Bool := c.isAlpha || c.isDigit || c = '_'

/-- Is the position after a word boundary, given the previous original
character (none at the start of the string)? -/
def boundaryBefore : Option Char → Bool
  | none => true
  | some p => !isWordChar p

/-- Fuel-indexed scanner for `re.sub(r"\b<word>\b", "", s, flags=IGNORECASE)`:
removes each occurrence of the (lower-cased, non-empty) word `w` that sits
between word boundaries of the original string.  Fuel is consumed one
character (or one match) at a time; the wrapper passes the string length,
which always suffices. -/
def removeWordAux (w : List Char) : Nat → Option Char → List Char → List Char
  | 0, _, l => l
  | _ + 1, _, [] => []
  | fuel + 1, prev, c :: t =>
    if boundaryBefore prev && startsWithCI w (c :: t) then
      let rest := (c :: t).drop w.length
      match rest with
      | [] => []
      | r :: rt =>
        if !isWordChar r then removeWordAux w fuel (some (w.getLastD c)) (r :: rt)
        else c :: removeWordAux w fuel (some c) t
    else c :: removeWordAux w fuel (some c) t

/-- `re.sub(r"\b<w>\b", "", s, flags=IGNORECASE)` for a fixed word `w`. -/
def removeWordCI (w : String) (s : String) : String :=
  (removeWordAux w.data s.data.length none s.data).asString

/-- Try to match `not\s+null` at the head of the list; on success return the
rest after the match. -/
def matchNotNull (l : List Char) : Option (List Char) :=
  if startsWithCI ['n', 'o', 't'] l then
    let r1 := l.drop 3
    match r1 with
    | [] => none
    | c :: _ =>
      if pyIsSpace c then
        let r2 := r1.dropWhile pyIsSpace
        if startsWithCI ['n', 'u', 'l', 'l'] r2 then some (r2.drop 4) else none
      else none
  else none

/-- Fuel-indexed scanner for `re.sub(r"\bnot\s+null\b", "", s, IGNORECASE)`. -/
def removeNotNullAux : Nat → Option Char → List Char → List Char
  | 0, _, l => l
  | _ + 1, _, [] => []
  | fuel + 1, prev, c :: t =>
    if boundaryBefore prev then
      match matchNotNull (c :: t) with
      | some rest =>
        (match rest with
         | [] => []
         | r :: rt =>
           if !isWordChar r then removeNotNullAux fuel (some 'l') (r :: rt)
           else c :: removeNotNullAux fuel (some c) t)
      | none => c :: removeNotNullAux fuel (some c) t
    else c :: removeNotNullAux fuel (some c) t

/-- `re.sub(r"\bnot\s+null\b", "", s, flags=IGNORECASE)`. -/
def removeNotNull (s : String) : String :=
  (removeNotNullAux s.data.length none s.data).asString

/-- Lookup in an association list built like a Python dict whose later
bindings overwrite earlier ones: the rightmost binding wins. -/
def revLookup {β : Type} (l : List (String × β)) (k : String) : Option β :=
  (l.reverse).lookup k

/-- `revLookup` for pair-keyed dicts (the `enum_overrides` table). -/
def revLookupP {β : Type} (l : List ((String × String) × β)) (k : String × String) :
    Option β :=
  (l.reverse).lookup k

/-- `DEFAULT_SENTINEL` from tools/constants.py.  The module itself is not in
the repository snapshot; the literal is pinned by the repository's own tests
(src/tests/test_basic_generation.py asserts the token `__DEFAULT__` and the
emitted comment `defaulted (__DEFAULT__)`). -/
def DEFAULT_SENTINEL : String := "__DEFAULT__"

/-- `AdaSpecIndex`: the queryable model one schema parses to
(types_provider.py).  The parsing phase itself is out of scope of the
claims; an index is taken as given data. -/
structure AdaSpecIndex where
  root : Option String
  records : List (String × List (String × String))
  arrays : List (String × String)
  array_dims : List (String × Nat)
  enums : List (String × List String)
  subtypes : List (String × String)
deriving Repr, DecidableEq

/-- `AdaSpecIndex._clean_reference`: drop an Ada comment tail, strip the
decorative qualifiers `aliased`, `not null`, `access`, `constant`
(word-boundary, case-insensitive), collapse whitespace, strip. -/
def clean_reference (ref : String) : String :=
  let c0 := (beforeSub ['-', '-'] ref.data).asString
  let c1 := removeWordCI "aliased" c0
  let c2 := removeNotNull c1
  let c3 := removeWordCI "access" c2
  let c4 := removeWordCI "constant" c3
  pyStrip (collapseWs c4)

/-- `AdaSpecIndex.normalize_name`: clean, drop a parenthesised constraint,
strip the root package prefix. -/
def AdaSpecIndex.normalize_name (idx : AdaSpecIndex) (name : String) : String :=
  let cleaned := clean_reference name
  if cleaned = "" then cleaned
  else
    let cleaned := pyStrip ((cleaned.data.takeWhile (· ≠ '(')).asString)
    match idx.root with
    | some r =>
      if r ≠ "" && listStartsWith (r ++ ".").data cleaned.data then
        (cleaned.data.drop (r.length + 1)).asString
      else cleaned
    | none => cleaned

/-- `AdaSpecIndex.resolve_record_fields`, fuel-indexed.  The outer `Option`
is fuel exhaustion (never happens at the wrapper's fuel); the inner one is
the function's own not-found result.  Faithful to the source: the key is
checked against `seen` first, then `records`, then the key is added to the
visited set and the subtype alias is followed. -/
def AdaSpecIndex.resolve_record_fields_fuel (idx : AdaSpecIndex) :
    Nat → String → List String → Option (Option (List (String × String)))
  | 0, _, _ => none
  | fuel + 1, name, seen =>
    let key := idx.normalize_name name
    if key = "" || key ∈ seen then some none
    else
      match List.lookup key idx.records with
      | some f => some (some f)
      | none =>
        match List.lookup key idx.subtypes with
        | none => some none
        | some base_expr =>
          let base_name := idx.normalize_name base_expr
          if base_name = "" then some none
          else idx.resolve_record_fields_fuel fuel base_name (key :: seen)

/-- `AdaSpecIndex.resolve_array_element`, fuel-indexed. -/
def AdaSpecIndex.resolve_array_element_fuel (idx : AdaSpecIndex) :
    Nat → String → List String → Option (Option String)
  | 0, _, _ => none
  | fuel + 1, name, seen =>
    let key := idx.normalize_name name
    if key = "" || key ∈ seen then some none
    else
      match List.lookup key idx.arrays with
      | some v => some (some (clean_reference v))
      | none =>
        match List.lookup key idx.subtypes with
        | none => some none
        | some base_expr =>
          let base_name := idx.normalize_name base_expr
          if base_name = "" then some none
          else idx.resolve_array_element_fuel fuel base_name (key :: seen)

/-- `AdaSpecIndex.resolve_array_dimension`, fuel-indexed. -/
def AdaSpecIndex.resolve_array_dimension_fuel (idx : AdaSpecIndex) :
    Nat → String → List String → Option (Option Nat)
  | 0, _, _ => none
  | fuel + 1, name, seen =>
    let key := idx.normalize_name name
    if key = "" || key ∈ seen then some none
    else
      match List.lookup key idx.array_dims with
      | some d => some (some d)
      | none =>
        match List.lookup key idx.subtypes with
        | none => some none
        | some base_expr =>
          let base_name := idx.normalize_name base_expr
          if base_name = "" then some none
          else idx.resolve_array_dimension_fuel fuel base_name (key :: seen)

/-- `AdaSpecIndex.resolve_enum_literals`, fuel-indexed. -/
def AdaSpecIndex.resolve_enum_literals_fuel (idx : AdaSpecIndex) :
    Nat → String → List String → Option (Option (List String))
  | 0, _, _ => none
  | fuel + 1, name, seen =>
    let key := idx.normalize_name name
    if key = "" || key ∈ seen then some none
    else
      match List.lookup key idx.enums with
      | some l => some (some l)
      | none =>
        match List.lookup key idx.subtypes with
        | none => some none
        | some base_expr =>
          let base_name := idx.normalize_name base_expr
          if base_name = "" then some none
          else idx.resolve_enum_literals_fuel fuel base_name (key :: seen)

/-- The fuel that always suffices for one alias-chain resolution: every
recursive step consumes a distinct `subtypes` key not yet in the visited
set, so chain length is bounded by the number of subtype declarations. -/
def AdaSpecIndex.chainFuel (idx : AdaSpecIndex) : Nat := idx.subtypes.length + 1

/-- `resolve_record_fields` at sufficient fuel. -/
def AdaSpecIndex.resolve_record_fields (idx : AdaSpecIndex) (name : String)
    (seen : List String) : Option (List (String × String)) :=
  (idx.resolve_record_fields_fuel idx.chainFuel name seen).join

/-- `resolve_array_element` at sufficient fuel. -/
def AdaSpecIndex.resolve_array_element (idx : AdaSpecIndex) (name : String)
    (seen : List String) : Option String :=
  (idx.resolve_array_element_fuel idx.chainFuel name seen).join

/-- `resolve_array_dimension` at sufficient fuel. -/
def AdaSpecIndex.resolve_array_dimension (idx : AdaSpecIndex) (name : String)
    (seen : List String) : Option Nat :=
  (idx.resolve_array_dimension_fuel idx.chainFuel name seen).join

/-- `resolve_enum_literals` at sufficient fuel. -/
def AdaSpecIndex.resolve_enum_literals (idx : AdaSpecIndex) (name : String)
    (seen : List String) : Option (List String) :=
  (idx.resolve_enum_literals_fuel idx.chainFuel name seen).join

/-- The two schema domains; the Python code addresses them by the strings
`"from"` and `"to"`. -/
inductive Dom
  | dfrom
  | dto
deriving Repr, DecidableEq

/-- `RegexTypesProvider`: a pair of parsed indexes. -/
structure RegexTypesProvider where
  fromIdx : AdaSpecIndex
  toIdx : AdaSpecIndex
deriving Repr, DecidableEq

/-- `RegexTypesProvider._index`. -/
def RegexTypesProvider.idx (p : RegexTypesProvider) : Dom → AdaSpecIndex
  | Dom.dfrom => p.fromIdx
  | Dom.dto => p.toIdx

/-- `RegexTypesProvider.get_record_fields` (fresh visited set per call). -/
def RegexTypesProvider.get_record_fields (p : RegexTypesProvider) (d : Dom)
    (name : String) : Option (List (String × String)) :=
  (p.idx d).resolve_record_fields name []

/-- `RegexTypesProvider.get_array_element_type`. -/
def RegexTypesProvider.get_array_element_type (p : RegexTypesProvider) (d : Dom)
    (name : String) : Option String :=
  (p.idx d).resolve_array_element name []

/-- `RegexTypesProvider.get_enum_literals`. -/
def RegexTypesProvider.get_enum_literals (p : RegexTypesProvider) (d : Dom)
    (name : String) : Option (List String) :=
  (p.idx d).resolve_enum_literals name []

/-- `RegexTypesProvider.get_array_dimension`. -/
def RegexTypesProvider.get_array_dimension (p : RegexTypesProvider) (d : Dom)
    (name : String) : Option Nat :=
  (p.idx d).resolve_array_dimension name []

/-- Python truthiness on an optional string: `None` and `""` are falsy. -/
def strTruthy : Option String → Option String
  | some s => if s = "" then none else some s
  | none => none

/-- Python `key in dict` on an association list. -/
def hasKey (l : List (String × String)) (k : String) : Bool :=
  (List.lookup k l).isSome

/-- The `{k.lower(): k for k in fields}` lookup table (`parsed_*_lower`
caches); read with `revLookup` so a later binding overwrites an earlier
one, as in a Python dict comprehension. -/
def lowerDict (fields : List (String × String)) : List (String × String) :=
  fields.map (fun kv => (pyLower kv.1, kv.1))

/-- `next((k for k in fields if k.lower() == name.lower()), None)`. -/
def firstCIKey (fields : List (String × String)) (name : String) : Option String :=
  (fields.find? (fun kv => pyLower kv.1 = pyLower name)).map (·.1)

/-- `set.add` on a list representing a Python set (membership-deduplicated,
in insertion order). -/
def addPair (l : List (String × String)) (p : String × String) : List (String × String) :=
  if p ∈ l then l else l ++ [p]

/-- `MapperGenerator._base_type`: everything before a parenthesised
constraint, stripped; `None` for a falsy argument. -/
def base_type : Option String → Option String
  | none => none
  | some t => if t = "" then none else some (pyStrip ((t.data.takeWhile (· ≠ '(')).asString))

/-- `MapperGenerator`: the mapping compiler's per-run state.  The memo
caches of the Python class are read-through and are recomputed here (see
the file header). -/
structure MapperGenerator where
  provider : RegexTypesProvider
  mapping_pairs : List (String × String)
  needed_array_maps : List (String × String)
  needed_enum_maps : List (String × String)
  enum_overrides : List ((String × String) × List (String × String))
deriving Repr, DecidableEq

/-- `MapperGenerator.get_to_fields`. -/
def MapperGenerator.get_to_fields (mg : MapperGenerator) (tname : String) :
    Option (List (String × String)) :=
  if tname = "" then none
  else
    match base_type (some tname) with
    | none => none
    | some b => if b = "" then none else mg.provider.get_record_fields Dom.dto b

/-- `MapperGenerator.get_from_fields`. -/
def MapperGenerator.get_from_fields (mg : MapperGenerator) (tname : String) :
    Option (List (String × String)) :=
  if tname = "" then none
  else
    match base_type (some tname) with
    | none => none
    | some b => if b = "" then none else mg.provider.get_record_fields Dom.dfrom b

/-- `MapperGenerator.to_array_elem`. -/
def MapperGenerator.to_array_elem (mg : MapperGenerator) : Option String → Option String
  | none => none
  | some t =>
    if t = "" then none
    else
      match base_type (some t) with
      | none => none
      | some b => if b = "" then none else mg.provider.get_array_element_type Dom.dto b

/-- `MapperGenerator.from_array_elem`. -/
def MapperGenerator.from_array_elem (mg : MapperGenerator) : Option String → Option String
  | none => none
  | some t =>
    if t = "" then none
    else
      match base_type (some t) with
      | none => none
      | some b => if b = "" then none else mg.provider.get_array_element_type Dom.dfrom b

/-- The per-segment walk of `MapperGenerator.resolve_src_path_type`.  The
lowercase table is `parsed_from_lower[base]`, which at this point holds
exactly `lowerDict` of the fields just fetched. -/
def MapperGenerator.resolve_src_path_type_aux (mg : MapperGenerator) :
    List String → String → Option String
  | [], cur_t => some cur_t
  | part :: rest, cur_t =>
    match mg.get_from_fields cur_t with
    | none => none
    | some field_map =>
      if field_map = [] then none
      else
        let lower_map := lowerDict field_map
        let key0 : Option String :=
          if hasKey field_map part then some part else revLookup lower_map (pyLower part)
        let key1 : Option String :=
          match strTruthy key0 with
          | some k => some k
          | none => firstCIKey field_map part
        match strTruthy key1 with
        | none => none
        | some k => mg.resolve_src_path_type_aux rest (pyStrip ((List.lookup k field_map).getD ""))

/-- `MapperGenerator.resolve_src_path_type`. -/
def MapperGenerator.resolve_src_path_type (mg : MapperGenerator)
    (start_type path : String) : Option String :=
  mg.resolve_src_path_type_aux (pySplitDot path) start_type

/-- `MapperGenerator.format_record_lines` (default indent). -/
def format_record_lines (parts : List (String × String × Option String)) : List String :=
  parts.enum.map (fun ic =>
    let idx := ic.1
    let dest := ic.2.1
    let expr := ic.2.2.1
    let comment := ic.2.2.2
    let line := "       " ++ dest ++ " => " ++ expr
    let line := if idx < parts.length - 1 then line ++ "," else line
    match comment with
    | some c => line ++ " -- " ++ c
    | none => line)

/-- `MapperGenerator.format_record_aggregate`. -/
def format_record_aggregate (parts : List (String × String × Option String)) : String :=
  if parts = [] then "( )"
  else "(\n" ++ String.intercalate "\n" (format_record_lines parts) ++ "\n    )"

/-- `(others => ...)` wrapping, once per dimension. -/
def wrapOthers : Nat → String → String
  | 0, e => e
  | n + 1, e => wrapOthers n ("(others => " ++ e ++ ")")

/-- Folds a record's fields through a defaulting function, threading the
visited set (the Python code passes one mutable `seen` set through the
whole recursion). -/
def default_fields_run (f : String → List String → Option (String × List String)) :
    List (String × String) → List String → Option (List String × List String)
  | [], seen => some ([], seen)
  | (fname, ftype) :: rest, seen =>
    match f ftype seen with
    | none => none
    | some (e, seen1) =>
      match default_fields_run f rest seen1 with
      | none => none
      | some (parts, seen2) => some ((fname ++ " => " ++ e) :: parts, seen2)

/-- `MapperGenerator.default_expr`, fuel-indexed (`none` = fuel ran out;
the Python recursion is unbounded).  `seen` is the per-call visited set;
it is threaded through the recursion exactly as the shared mutable Python
set is. -/
def MapperGenerator.default_expr_fuel (mg : MapperGenerator) (fuel : Nat)
    (type_name : Option String) (seen : List String) : Option (String × List String) :=
  match fuel with
  | 0 => none
  | fuel + 1 =>
    let t0 := type_name.getD ""
    if t0 = "" then some ("<>", seen)
    else
      let t := pyStrip t0
      if t = "" then some ("<>", seen)
      else if t ∈ seen then some (t ++ "'First", seen)
      else
        let seen := t :: seen
        let bt := (base_type (some t)).getD ""
        if bt = "" then some ("<>", seen)
        else
          let record_fields := (mg.get_to_fields bt).getD []
          if record_fields ≠ [] then
            match default_fields_run (fun ft sn => mg.default_expr_fuel fuel (some ft) sn)
                record_fields seen with
            | none => none
            | some (parts, seen2) =>
              some (bt ++ "'(\n         " ++ String.intercalate ",\n         " parts
                      ++ "\n      )", seen2)
          else
            let array_elem := (strTruthy (mg.to_array_elem (some bt))).getD ""
            if array_elem ≠ "" then
              match mg.default_expr_fuel fuel (some array_elem) seen with
              | none => none
              | some (elem_default, seen2) =>
                let dims := (mg.provider.get_array_dimension Dom.dto bt).getD 1
                let expr := wrapOthers dims elem_default
                some (if t ≠ bt then expr else bt ++ "'" ++ expr, seen2)
            else
              let enum_literals := (mg.provider.get_enum_literals Dom.dto bt).getD []
              if enum_literals ≠ [] then some (enum_literals.headD "", seen)
              else if containsSub "access".data (pyLower bt).data then some ("null", seen)
              else some (bt ++ "'First", seen)

/-- The source-field selection of the inlined record aggregate: the exact
destination name if it is a key of the source fields, else the
case-insensitive match via the lowercase table, else a first-match
case-insensitive scan; an empty result is falsy at every step. -/
def matchSourceField (from_fields from_lower : List (String × String))
    (d_name : String) : Option String :=
  let s0 : Option String :=
    if hasKey from_fields d_name then some d_name
    else revLookup from_lower (pyLower d_name)
  let s1 : Option String :=
    match strTruthy s0 with
    | some k => some k
    | none => firstCIKey from_fields d_name
  strTruthy s1

/-- Folds the destination fields of an inlined record aggregate through the
recursive expression builder, threading the generator state (the need-sets
grow inside nested calls). -/
def value_fields_run
    (f : MapperGenerator → Option String → Option String → String →
         Option ((String × Option String) × MapperGenerator))
    (from_fields from_lower : List (String × String)) (src_expr : String) :
    List (String × String) → MapperGenerator →
    Option (List (String × String × Option String) × MapperGenerator)
  | [], mg => some ([], mg)
  | (d_name, d_ftype) :: rest, mg =>
    match matchSourceField from_fields from_lower d_name with
    | none =>
      (value_fields_run f from_fields from_lower src_expr rest mg).map
        (fun pm => ((d_name, d_ftype ++ " (" ++ src_expr ++ ")", none) :: pm.1, pm.2))
    | some s_name =>
      let s_ftype := (List.lookup s_name from_fields).getD ""
      match f mg (some d_ftype) (some s_ftype) (src_expr ++ "." ++ s_name) with
      | none => none
      | some ((sub_expr, sub_comment), mg1) =>
        (value_fields_run f from_fields from_lower src_expr rest mg1).map
          (fun pm => ((d_name, sub_expr, sub_comment) :: pm.1, pm.2))

/-- `MapperGenerator.value_expr`, fuel-indexed (`none` = fuel ran out).
Returns the expression, the optional comment, and the generator with the
need-sets it registered on the way. -/
def MapperGenerator.value_expr_fuel (mg : MapperGenerator) (fuel : Nat)
    (dst_t src_t : Option String) (src_expr : String) :
    Option ((String × Option String) × MapperGenerator) :=
  match fuel with
  | 0 => none
  | fuel + 1 =>
    if pyUpper (pyStrip src_expr) = DEFAULT_SENTINEL then
      (mg.default_expr_fuel fuel dst_t []).map
        (fun r => ((r.1, some ("defaulted (" ++ DEFAULT_SENTINEL ++ ")")), mg))
    else
      let to_fields : Option (List (String × String)) :=
        match strTruthy dst_t with
        | some s => mg.get_to_fields s
        | none => none
      let from_fields : Option (List (String × String)) :=
        match strTruthy src_t with
        | some s => mg.get_from_fields s
        | none => none
      if (to_fields.getD []) ≠ [] && (from_fields.getD []) ≠ [] then
        if (strTruthy src_t).isSome && (strTruthy dst_t).isSome &&
            decide ((pyStrip ((strTruthy src_t).getD ""), pyStrip ((strTruthy dst_t).getD ""))
              ∈ mg.mapping_pairs) then
          some (("Map(" ++ src_expr ++ ")", none), mg)
        else
          let ff := from_fields.getD []
          match value_fields_run
              (fun m a b c => MapperGenerator.value_expr_fuel m fuel a b c)
              ff (lowerDict ff) src_expr (to_fields.getD []) mg with
          | none => none
          | some (parts, mg2) => some ((format_record_aggregate parts, none), mg2)
      else
        match strTruthy (mg.to_array_elem dst_t), strTruthy (mg.from_array_elem src_t) with
        | some _, some _ =>
          let src_key := ((strTruthy src_t).map pyStrip).getD ""
          let dst_key := ((strTruthy dst_t).map pyStrip).getD ""
          some (("Map(" ++ src_expr ++ ")", none),
            { mg with needed_array_maps := addPair mg.needed_array_maps (src_key, dst_key) })
        | _, _ =>
          let to_enums : Option (List String) :=
            match strTruthy (base_type dst_t) with
            | some b => mg.provider.get_enum_literals Dom.dto b
            | none => none
          let from_enums : Option (List String) :=
            match strTruthy (base_type src_t) with
            | some b => mg.provider.get_enum_literals Dom.dfrom b
            | none => none
          if (to_enums.getD []) ≠ [] && (from_enums.getD []) ≠ [] then
            some (("Map(" ++ src_expr ++ ")", none),
              { mg with needed_enum_maps :=
                  (addPair mg.needed_enum_maps
                    (pyStrip (src_t.getD ""), pyStrip (dst_t.getD ""))) })
          else
            let cast_type : Option String :=
              match strTruthy (base_type dst_t) with
              | some b => some b
              | none => dst_t
            match strTruthy cast_type with
            | some ct => some ((ct ++ " (" ++ src_expr ++ ")", none), mg)
            | none => some ((src_expr, none), mg)

/-- The cast target of the scalar branch of `value_expr`:
`base if base else dst_t` for a truthy `dst_t`. -/
def castTypeStr (dt : String) : String :=
  match strTruthy (base_type (some dt)) with
  | some b => b
  | none => dt

/-- The pair `(dt, st)` falls through to the scalar-cast branch of
`value_expr`: not both records, not both arrays, not both enums (the exact
branch scrutinees of `value_expr_fuel` on `some dt` / `some st`). -/
def MapperGenerator.isScalarPair (mg : MapperGenerator) (dt st : String) : Bool :=
  (decide (((match strTruthy (some dt) with
      | some s => mg.get_to_fields s
      | none => none) : Option (List (String × String))).getD [] = []) ||
   decide (((match strTruthy (some st) with
      | some s => mg.get_from_fields s
      | none => none) : Option (List (String × String))).getD [] = [])) &&
  ((strTruthy (mg.to_array_elem (some dt))).isNone ||
   (strTruthy (mg.from_array_elem (some st))).isNone) &&
  (decide (((match strTruthy (base_type (some dt)) with
      | some b => mg.provider.get_enum_literals Dom.dto b
      | none => none) : Option (List String)).getD [] = []) ||
   decide (((match strTruthy (base_type (some st)) with
      | some b => mg.provider.get_enum_literals Dom.dfrom b
      | none => none) : Option (List String)).getD [] = []))

/-- The body of the `for src_arr, dst_arr` loop of
`expand_array_pairs_transitively`: for a pair whose two element types are
themselves arrays, add the element pair if absent. -/
def MapperGenerator.expand_step (mg : MapperGenerator)
    (acc : List (String × String)) (sd : String × String) :
    List (String × String) :=
  match strTruthy (mg.from_array_elem (some sd.1)),
        strTruthy (mg.to_array_elem (some sd.2)) with
  | some se, some de =>
    match strTruthy (mg.from_array_elem (some se)),
          strTruthy (mg.to_array_elem (some de)) with
    | some _, some _ => if (se, de) ∈ acc then acc else acc ++ [(se, de)]
    | _, _ => acc
  | _, _ => acc

/-- One pass of `expand_array_pairs_transitively`: scan a snapshot of the
need-set, running the loop body on the live set. -/
def MapperGenerator.expand_pass (mg : MapperGenerator)
    (needed : List (String × String)) : List (String × String) :=
  needed.foldl mg.expand_step needed

/-- The `while changed` loop of `expand_array_pairs_transitively`,
fuel-indexed. -/
def MapperGenerator.expand_loop (mg : MapperGenerator) :
    Nat → List (String × String) → List (String × String)
  | 0, needed => needed
  | fuel + 1, needed =>
    let next := mg.expand_pass needed
    if next = needed then needed else mg.expand_loop fuel next

/-- Fuel that provably reaches the closure's fixpoint: every addition is a
pair of array element types of the two schemas, so at most
`|from arrays| * |to arrays|` pairs can ever be added and one more pass
then changes nothing. -/
def MapperGenerator.expandFuel (mg : MapperGenerator) : Nat :=
  mg.provider.fromIdx.arrays.length * mg.provider.toIdx.arrays.length + 1

/-- `MapperGenerator.expand_array_pairs_transitively`. -/
def MapperGenerator.expand_array_pairs_transitively (mg : MapperGenerator) :
    MapperGenerator :=
  { mg with needed_array_maps := mg.expand_loop mg.expandFuel mg.needed_array_maps }

/-! ## tools/arrays.py -/

/-- The fixed index-variable pool of `array_map_body`. -/
def idx_names : List String := ["I", "J", "K", "L", "M"]

/-- Python `"   " * n`. -/
def strRepeat (s : String) : Nat → String
  | 0 => ""
  | n + 1 => s ++ strRepeat s n

/-- The element conversion expression chosen by `array_map_body`: a `Map`
call for declared/needed pairs and array-of-array elements, an inlined
per-field aggregate for record elements, else a cast of the accessed
source element.  (The `try/except` around the aggregate never fires in the
embedding: none of the called operations raises.) -/
def MapperGenerator.array_elem_expr (mg : MapperGenerator)
    (src_elem dst_elem access_expr : String) : String :=
  let init := if dst_elem ≠ "" then dst_elem ++ " (" ++ access_expr ++ ")" else access_expr
  let to_elem2 := if dst_elem ≠ "" then strTruthy (mg.to_array_elem (some dst_elem)) else none
  let from_elem2 := if src_elem ≠ "" then strTruthy (mg.from_array_elem (some src_elem)) else none
  if (src_elem, dst_elem) ∈ mg.mapping_pairs ∨ (src_elem, dst_elem) ∈ mg.needed_array_maps then
    "Map(" ++ access_expr ++ ")"
  else if to_elem2.isSome && from_elem2.isSome then
    "Map(" ++ access_expr ++ ")"
  else
    let to_fields := (mg.get_to_fields dst_elem).getD []
    let from_fields := (mg.get_from_fields src_elem).getD []
    if to_fields ≠ [] && from_fields ≠ [] then
      format_record_aggregate (to_fields.map (fun dd =>
        let s_name : Option String :=
          if hasKey from_fields dd.1 then some dd.1 else firstCIKey from_fields dd.1
        match strTruthy s_name with
        | none => (dd.1, dst_elem ++ " (" ++ access_expr ++ ")", none)
        | some s => (dd.1, dd.2 ++ " (" ++ access_expr ++ "." ++ s ++ ")", none)))
    else init

/-- The loop nest of `array_map_body` as the list of emitted lines: one
`for` line per dimension, the innermost assignment, one `end loop;` per
dimension. -/
def array_body_lines (elem_expr : String) (dims : Nat) : List String :=
  let indices := idx_names.take dims
  let forLines := indices.enum.map (fun li =>
    let spaces := "      " ++ strRepeat "   " li.1
    let range_attr :=
      if li.1 = 0 then "R'Range" else "R'Range(" ++ toString (li.1 + 1) ++ ")"
    spaces ++ "for " ++ li.2 ++ " in " ++ range_attr ++ " loop")
  let assign_indent := "      " ++ strRepeat "   " indices.length
  let dest_expr :=
    if dims > 1 then "R(" ++ String.intercalate ", " indices ++ ")" else "R(I)"
  let assign := assign_indent ++ dest_expr ++ " := " ++ elem_expr ++ ";"
  let endLines := (List.range indices.length).reverse.map (fun level =>
    "      " ++ strRepeat "   " level ++ "end loop;")
  forLines ++ [assign] ++ endLines

/-- `array_map_body` (tools/arrays.py). -/
def MapperGenerator.array_map_body (mg : MapperGenerator) (src_arr dst_arr : String) :
    String :=
  let src_elem := (mg.from_array_elem (some src_arr)).getD ""
  let dst_elem := (mg.to_array_elem (some dst_arr)).getD ""
  let dims :=
    match mg.provider.get_array_dimension Dom.dto dst_arr with
    | none => 1
    | some d => if d = 0 then 1 else d
  let indices := idx_names.take dims
  let access_expr :=
    "A" ++ (if dims > 1 then "(" ++ String.intercalate ", " indices ++ ")" else "(I)")
  let elem_expr := mg.array_elem_expr src_elem dst_elem access_expr
  let loops_str := String.intercalate "\n" (array_body_lines elem_expr dims)
  "   function Map (A : Types_From." ++ src_arr ++ ") return Types_To." ++ dst_arr
    ++ " is\n      R : Types_To." ++ dst_arr ++ ";\n   begin\n" ++ loops_str
    ++ "\n      return R;\n   end Map;\n"

/-! ## tools/enums.py -/

/-- Python dict insertion with overwrite (`d[k] = v`). -/
def dictInsert (d : List (String × String)) (k v : String) : List (String × String) :=
  if (List.lookup k d).isSome then d.map (fun kv => if kv.1 = k then (k, v) else kv)
  else d ++ [(k, v)]

/-- `{n.lower(): n for n in lits}`, with overwrite semantics baked in so a
plain `List.lookup` reads it like a Python dict. -/
def lowerLitDict (lits : List String) : List (String × String) :=
  lits.foldl (fun d n => dictInsert d (pyLower n) n) []

/-- The override-normalisation loop of `enum_map_body`: each raw entry is
stripped, lower-cased and checked against the declared literal sets;
unknown literals raise.  (All entries are strings in the embedding, so the
`isinstance` guard of the source is vacuous.) -/
def buildOverride (src_enum dst_enum : String)
    (src_lookup dest_lookup : List (String × String)) :
    List (String × String) → List (String × String) →
    Except String (List (String × String))
  | [], acc => Except.ok acc
  | (raw_src, raw_dst) :: rest, acc =>
    let src_key := pyLower (pyStrip raw_src)
    let dst_key := pyLower (pyStrip raw_dst)
    if (List.lookup src_key src_lookup).isNone then
      Except.error ("Enum mapping override references unknown literal '" ++ raw_src
        ++ "' in " ++ src_enum)
    else if (List.lookup dst_key dest_lookup).isNone then
      Except.error ("Enum mapping override targets unknown literal '" ++ raw_dst
        ++ "' in " ++ dst_enum)
    else
      buildOverride src_enum dst_enum src_lookup dest_lookup rest
        (dictInsert acc ((List.lookup src_key src_lookup).getD "")
          ((List.lookup dst_key dest_lookup).getD ""))

/-- `qualify` from `enum_map_body`. -/
def qualify (root : String) (pkg_parts : List String) (literal : String) : String :=
  String.intercalate "." ((root :: (pkg_parts ++ [literal])).filter (· ≠ ""))

/-- The destination literal one source literal maps to: the registered
override if present, else the case-insensitive same-name destination
literal (`override.get(literal)` / `dest_lookup.get(literal.lower())`). -/
def enumTarget (override dest_lookup : List (String × String)) (lit : String) :
    Option String :=
  match List.lookup lit override with
  | some t => some t
  | none => List.lookup (pyLower lit) dest_lookup

/-- The arm-building loop of `enum_map_body`: per source literal in
declaration order, the `enumTarget` destination, else the literal goes on
the `missing` list.  Returns `(arms, missing)`. -/
def enumArmsAux (override dest_lookup : List (String × String))
    (src_qual dst_qual : String → String) :
    List String → List String × List String
  | [] => ([], [])
  | lit :: rest =>
    let r := enumArmsAux override dest_lookup src_qual dst_qual rest
    match enumTarget override dest_lookup lit with
    | none => (r.1, lit :: r.2)
    | some tgt => (("when " ++ src_qual lit ++ " => " ++ dst_qual tgt) :: r.1, r.2)

/-- `enum_map_body` (tools/enums.py); `Except.error` is the `RuntimeError`
the source raises. -/
def MapperGenerator.enum_map_body (mg : MapperGenerator) (src_enum dst_enum : String) :
    Except String String :=
  let to_enums := (mg.provider.get_enum_literals Dom.dto dst_enum).getD []
  let from_enums := (mg.provider.get_enum_literals Dom.dfrom src_enum).getD []
  if to_enums = [] ∨ from_enums = [] then
    Except.error ("Enum mapping between " ++ src_enum ++ " and " ++ dst_enum
      ++ " requires visible enum literals")
  else
    let dest_lookup := lowerLitDict to_enums
    let src_lookup := lowerLitDict from_enums
    let raw_override : Option (List (String × String)) :=
      if src_enum ≠ "" && dst_enum ≠ "" then revLookupP mg.enum_overrides (src_enum, dst_enum)
      else none
    match buildOverride src_enum dst_enum src_lookup dest_lookup (raw_override.getD []) [] with
    | Except.error e => Except.error e
    | Except.ok override =>
      let src_pkg_parts := (pySplitDot src_enum).dropLast
      let dst_pkg_parts := (pySplitDot dst_enum).dropLast
      let arms := enumArmsAux override dest_lookup
        (fun lit => qualify "Types_From" src_pkg_parts lit)
        (fun t => qualify "Types_To" dst_pkg_parts t) from_enums
      if arms.2 ≠ [] then
        Except.error ("Enum mapping between " ++ src_enum ++ " and " ++ dst_enum
          ++ " is missing mapping for: " ++ String.intercalate ", " arms.2
          ++ ". Add enum_map entries for these literals or align the enum names.")
      else
        let case_indent := "        "
        let alts := String.intercalate (",\n" ++ case_indent) arms.1
        let expr := "(case E is\n" ++ case_indent ++ alts ++ "\n     )"
        Except.ok ("   function Map (E : Types_From." ++ src_enum
          ++ ") return Types_To." ++ dst_enum ++ " is\n     " ++ expr ++ ";\n")

/-! ## tools/validation.py -/

/-- `is_placeholder`. -/
def is_placeholder (s : String) : Bool :=
  listStartsWith ['<'] s.data && listStartsWith ['>'] s.data.reverse

/-- `is_default_sentinel`. -/
def is_default_sentinel (s : String) : Bool :=
  pyUpper (pyStrip s) = DEFAULT_SENTINEL

/-- Python `f"{x}"` on an optional string (`None` prints as `None`). -/
def pyShowOpt : Option String → String
  | some s => s
  | none => "None"

/-- One `fields` value of a mapping entry.  String values and mapping
objects (`from`/`source`/`path` plus an optional string-to-string
`enum_map` table) are modelled structurally; any other JSON value is
`fother` carrying its Python `repr`, used only in the
"unsupported mapping value" defect. -/
inductive FieldSpec
  | fstr (s : String)
  | fobj (fromKey sourceKey pathKey : Option String)
      (enum_map : Option (List (String × String))) (reprStr : String)
  | fother (reprStr : String)
deriving Repr, DecidableEq

/-- A parsed mapping entry.  `none` in `fields` models an absent or
non-object `fields` value; `none` in the type slots models an absent or
non-string value. -/
structure MappingEntry where
  name : Option String
  from_ty : Option String
  to_ty : Option String
  fields : Option (List (String × FieldSpec))
deriving Repr, DecidableEq

/-- A generator whose only live part is the provider — exactly what
`validate_mappings` constructs for its helper calls (none of the entry
checks reads `mapping_pairs` or the need-sets). -/
def mgOf (p : RegexTypesProvider) : MapperGenerator :=
  { provider := p, mapping_pairs := [], needed_array_maps := [],
    needed_enum_maps := [], enum_overrides := [] }

/-- `_build_lookup`. -/
def build_lookup (fields : List (String × String)) : List (String × (String × String)) :=
  fields.map (fun kv => (pyLower kv.1, (kv.1, kv.2)))

/-- `_enum_literals` (the per-entry cache is read-through and recomputed). -/
def enum_literals_v (d : Dom) (type_name : Option String) (p : RegexTypesProvider) :
    List String :=
  match type_name with
  | none => []
  | some t =>
    let tk := pyStrip t
    if tk = "" then [] else (p.get_enum_literals d tk).getD []

/-- `_resolve_source_reference`: the resolved source type (if any) and the
defects appended on the way. -/
def resolve_source_reference (mg : MapperGenerator) (reference ctx dest_field : String)
    (from_type : Option String) (from_lookup : List (String × (String × String))) :
    Option String × List String :=
  let ref_clean := pyStrip reference
  if is_default_sentinel ref_clean then (some DEFAULT_SENTINEL, [])
  else if containsSub ['.'] ref_clean.data then
    if (strTruthy from_type).isSome && from_type ≠ some DEFAULT_SENTINEL then
      match mg.resolve_src_path_type ((strTruthy from_type).getD "") ref_clean with
      | none => (none, [ctx ++ ": field '" ++ dest_field
          ++ "' references unknown source path '" ++ reference ++ "'"])
      | some resolved => (some (pyStrip resolved), [])
    else (none, [ctx ++ ": field '" ++ dest_field ++ "' uses dotted path '"
        ++ reference ++ "' but source type is missing"])
  else if from_lookup = [] then (none, [])
  else
    match revLookup from_lookup (pyLower ref_clean) with
    | none => (none, [ctx ++ ": field '" ++ dest_field
        ++ "' references unknown source field '" ++ reference ++ "' in type '"
        ++ pyShowOpt from_type ++ "'"])
    | some m => (some (pyStrip m.2), [])

/-- `_validate_enum_override` for a string-valued override table (the only
shape representable in the model; the non-dict and non-string defects of
the source are out of the embedding's input space). -/
def validate_enum_override (ctx dest_field : String) (enum_map : List (String × String))
    (dest_type : String) (source_type : Option String) (p : RegexTypesProvider) :
    List String :=
  let dest_literals := enum_literals_v Dom.dto (some dest_type) p
  let src_literals :=
    if (strTruthy source_type).isSome && source_type ≠ some DEFAULT_SENTINEL then
      enum_literals_v Dom.dfrom source_type p
    else []
  if dest_literals = [] ∨ src_literals = [] then
    [ctx ++ ": field '" ++ dest_field ++ "' provides 'enum_map' but either source '"
      ++ pyShowOpt source_type ++ "' or destination '" ++ dest_type ++ "' is not an enum"]
  else
    let dest_lookup := lowerLitDict dest_literals
    let src_lookup := lowerLitDict src_literals
    enum_map.flatMap (fun sd =>
      (if (List.lookup (pyLower sd.1) src_lookup).isNone then
        [ctx ++ ": field '" ++ dest_field ++ "' enum_map references unknown source literal '"
          ++ sd.1 ++ "'"]
       else [])
      ++ (if (List.lookup (pyLower sd.2) dest_lookup).isNone then
        [ctx ++ ": field '" ++ dest_field ++ "' enum_map targets unknown destination literal '"
          ++ sd.2 ++ "'"]
       else []))

/-- The closing type-family check of the per-field loop. -/
def family_check (p : RegexTypesProvider) (ctx dest_actual dest_type : String)
    (source_type : Option String) : List String :=
  match strTruthy source_type with
  | none => []
  | some st =>
    if st = DEFAULT_SENTINEL then []
    else
      let mgv := mgOf p
      (if ((mgv.get_to_fields dest_type).getD []) ≠ [] &&
          ((mgv.get_from_fields st).getD []) = [] then
        [ctx ++ ": field '" ++ dest_actual ++ "' expects record type '" ++ dest_type
          ++ "' but source expression resolves to '" ++ st ++ "', which is not a record"]
       else [])
      ++ (if (strTruthy (mgv.to_array_elem (some dest_type))).isSome &&
          (strTruthy (mgv.from_array_elem (some st))).isNone then
        [ctx ++ ": field '" ++ dest_actual ++ "' expects array type '" ++ dest_type
          ++ "' but source expression resolves to '" ++ st ++ "', which is not an array"]
       else [])

/-- The body of the per-field loop of `_validate_mapping_entry`. -/
def validate_field_spec (p : RegexTypesProvider) (ctx : String)
    (from_type : Option String) (from_lookup : List (String × (String × String)))
    (dest_lookup : List (String × (String × String))) (df : String × FieldSpec) :
    List String :=
  match revLookup dest_lookup (pyLower df.1) with
  | none => []
  | some da =>
    let dest_actual := da.1
    let dest_type := pyStrip da.2
    match df.2 with
    | FieldSpec.fstr s =>
      let spec_value := pyStrip s
      if is_placeholder spec_value then
        [ctx ++ ": field '" ++ dest_actual ++ "' still uses placeholder value '"
          ++ spec_value ++ "'"]
      else if is_default_sentinel spec_value then []
      else if containsSub ['.'] spec_value.data &&
          ((strTruthy from_type).isNone || from_type = some DEFAULT_SENTINEL) then
        [ctx ++ ": field '" ++ dest_actual ++ "' uses dotted path '" ++ spec_value
          ++ "' but source type is missing"]
      else if !(containsSub ['.'] spec_value.data) && from_lookup = [] then []
      else
        let rr := resolve_source_reference (mgOf p) spec_value ctx dest_actual
          from_type from_lookup
        rr.2 ++ family_check p ctx dest_actual dest_type rr.1
    | FieldSpec.fobj fk sk pk em _ =>
      let src_ref : Option String :=
        match strTruthy fk with
        | some v => some v
        | none =>
          match strTruthy sk with
          | some v => some v
          | none => strTruthy pk
      match src_ref with
      | none =>
        [ctx ++ ": field '" ++ dest_actual ++ "' mapping object must include 'from'/'source'/'path'"]
      | some sr =>
        if is_placeholder sr then
          [ctx ++ ": field '" ++ dest_actual ++ "' still uses placeholder value '" ++ sr ++ "'"]
        else
          let src_ref_str := pyStrip sr
          let str : Option String × List String :=
            if is_default_sentinel src_ref_str then (some DEFAULT_SENTINEL, [])
            else if containsSub ['.'] src_ref_str.data &&
                ((strTruthy from_type).isNone || from_type = some DEFAULT_SENTINEL) then
              (none, [ctx ++ ": field '" ++ dest_actual ++ "' uses dotted path '"
                ++ src_ref_str ++ "' but source type is missing"])
            else if !(containsSub ['.'] src_ref_str.data) && from_lookup = [] then (none, [])
            else
              resolve_source_reference (mgOf p) src_ref_str ctx dest_actual
                from_type from_lookup
          let errs2 :=
            match em with
            | some emap => validate_enum_override ctx dest_actual emap dest_type str.1 p
            | none => []
          str.2 ++ errs2 ++ family_check p ctx dest_actual dest_type str.1
    | FieldSpec.fother r =>
      [ctx ++ ": field '" ++ dest_actual ++ "' has unsupported mapping value " ++ r]

/-- `_validate_enum_entry`. -/
def validate_enum_entry (p : RegexTypesProvider) (ctx to_type : String)
    (from_ty : Option String) (fields : Option (List (String × FieldSpec)))
    (dest_literals : List String) : List String :=
  let fe : List String × List (String × String) :=
    match from_ty with
    | none => ([ctx ++ ": source type ('from') is missing for enum mapping"], [])
    | some fr =>
      if pyStrip fr = "" then
        ([ctx ++ ": source type ('from') is missing for enum mapping"], [])
      else if is_default_sentinel fr then ([], [])
      else
        let ph := if is_placeholder fr then
          [ctx ++ ": source type is still a placeholder '" ++ fr ++ "'"] else []
        let ft := pyStrip fr
        let fl := enum_literals_v Dom.dfrom (some ft) p
        (ph ++ (if fl = [] then
          [ctx ++ ": source type '" ++ ft ++ "' not found or is not an enum in source specs"]
         else []), lowerLitDict fl)
  match fields with
  | none => fe.1 ++ [ctx ++ ": 'fields' must be an object mapping enum literals"]
  | some fields_entry =>
    let dest_lookup := lowerLitDict dest_literals
    let missing := dest_literals.filter (fun lit => (List.lookup lit fields_entry).isNone)
    let missing_errs :=
      if missing ≠ [] then
        [ctx ++ ": missing mappings for enum literals " ++ String.intercalate ", " missing
          ++ " in '" ++ to_type ++ "'"]
      else []
    fe.1 ++ missing_errs ++ fields_entry.flatMap (fun ds =>
      if ¬ (ds.1 ∈ dest_lookup.map Prod.snd) then
        [ctx ++ ": destination literal '" ++ ds.1 ++ "' does not exist in enum '"
          ++ to_type ++ "'"]
      else
        match ds.2 with
        | FieldSpec.fstr s =>
          let spec_clean := pyStrip s
          if is_placeholder spec_clean then
            [ctx ++ ": literal '" ++ ds.1 ++ "' still uses placeholder value '" ++ s ++ "'"]
          else if is_default_sentinel spec_clean then []
          else if fe.2 ≠ [] && (List.lookup (pyLower spec_clean) fe.2).isNone then
            [ctx ++ ": literal '" ++ ds.1 ++ "' references unknown source literal '" ++ s ++ "'"]
          else []
        | FieldSpec.fobj _ _ _ _ r =>
          [ctx ++ ": literal '" ++ ds.1 ++ "' has unsupported mapping value " ++ r]
        | FieldSpec.fother r =>
          [ctx ++ ": literal '" ++ ds.1 ++ "' has unsupported mapping value " ++ r])

/-- `ctx = f"mapping '{name}'" if name else "a mapping entry"`. -/
def ctxOf (entry : MappingEntry) : String :=
  match strTruthy entry.name with
  | some n => "mapping '" ++ n ++ "'"
  | none => "a mapping entry"

/-- `_validate_mapping_entry`. -/
def validate_mapping_entry (p : RegexTypesProvider) (entry : MappingEntry) : List String :=
  let ctx := ctxOf entry
  match entry.to_ty with
  | none => [ctx ++ ": destination type ('to') is missing or empty"]
  | some to_raw =>
    if pyStrip to_raw = "" then [ctx ++ ": destination type ('to') is missing or empty"]
    else
      let to_type := pyStrip to_raw
      let mgv := mgOf p
      let dest_fields := (mgv.get_to_fields to_type).getD []
      let dest_enum_literals := enum_literals_v Dom.dto (some to_type) p
      if dest_fields = [] then
        if dest_enum_literals ≠ [] then
          validate_enum_entry p ctx to_type entry.from_ty entry.fields dest_enum_literals
        else
          [ctx ++ ": destination type '" ++ to_type
            ++ "' not found or is not a record in destination specs"]
      else
        let ftf : List String × Option String × List (String × String) :=
          match entry.from_ty with
          | none => ([ctx ++ ": source type ('from') is missing"], none, [])
          | some fr =>
            if pyStrip fr = "" then
              ([ctx ++ ": source type ('from') is missing"], none, [])
            else if is_default_sentinel fr then ([], some DEFAULT_SENTINEL, [])
            else
              let ph := if is_placeholder fr then
                [ctx ++ ": source type is still a placeholder '" ++ fr ++ "'"] else []
              let ft := pyStrip fr
              let ffl := (mgv.get_from_fields ft).getD []
              (ph ++ (if ffl = [] then
                [ctx ++ ": source type '" ++ ft
                  ++ "' not found or is not a record in source specs"]
               else []), some ft, ffl)
        match entry.fields with
        | none => ftf.1 ++ [ctx ++ ": 'fields' must be an object mapping destination fields to sources"]
        | some fields_entry =>
          let dest_lookup := build_lookup dest_fields
          let dest_field_keys_lower := fields_entry.map (fun kv => pyLower kv.1)
          let missing_fields :=
            (dest_fields.filter (fun f => ¬ (pyLower f.1 ∈ dest_field_keys_lower))).map (·.1)
          let missing_errs :=
            if missing_fields ≠ [] then
              [ctx ++ ": missing mappings for destination fields "
                ++ String.intercalate ", " missing_fields ++ " in type '" ++ to_type ++ "'"]
            else []
          let extra_errs :=
            (fields_entry.filter (fun kv => (revLookup dest_lookup (pyLower kv.1)).isNone)).map
              (fun kv => ctx ++ ": destination field '" ++ kv.1
                ++ "' does not exist in type '" ++ to_type ++ "'")
          let from_lookup := build_lookup ftf.2.2
          ftf.1 ++ missing_errs ++ extra_errs ++
            fields_entry.flatMap (validate_field_spec p ctx ftf.2.1 from_lookup dest_lookup)

/-- `validate_mappings`.  The generator it builds carries only the provider
into the per-entry checks (the `mapping_pairs` it sets are never read by
`_validate_mapping_entry`), so validation is a per-entry map-and-concat. -/
def validate_mappings (p : RegexTypesProvider) (mappings : List MappingEntry) : List String :=
  mappings.flatMap (validate_mapping_entry p)

/-! ## Shared lemmas -/

theorem lookup_some_mem {α : Type} {k : String} {l : List (String × α)} {v : α}
    (h : List.lookup k l = some v) : (k, v) ∈ l := by
  induction l with
  | nil => simp [List.lookup] at h
  | cons hd tl ih =>
    cases hd with
    | mk k1 v1 =>
      by_cases hk : k = k1
      · subst hk
        simp [List.lookup] at h
        subst h
        exact List.mem_cons_self _ _
      · rw [List.lookup, show (k == k1) = false by simp [hk]] at h
        exact List.mem_cons_of_mem _ (ih h)

theorem lookup_some_mem_fst {α : Type} {k : String} {l : List (String × α)} {v : α}
    (h : List.lookup k l = some v) : k ∈ l.map Prod.fst :=
  List.mem_map.mpr ⟨(k, v), lookup_some_mem h, rfl⟩

/-- The Boolean "not yet visited" predicate used as a termination measure. -/
def notSeen (seen : List String) (k : String) : Bool := decide (¬ k ∈ seen)

theorem notSeen_mem {seen : List String} {k : String} (h : k ∈ seen) :
    notSeen seen k = false := by simp [notSeen, h]

theorem notSeen_not_mem {seen : List String} {k : String} (h : ¬ k ∈ seen) :
    notSeen seen k = true := by simp [notSeen, h]

theorem filter_notmem_le (l : List String) (a : String) (seen : List String) :
    (l.filter (notSeen (a :: seen))).length ≤ (l.filter (notSeen seen)).length := by
  induction l with
  | nil => simp
  | cons b t ih =>
    rw [List.filter_cons, List.filter_cons]
    by_cases h2 : b ∈ seen
    · rw [notSeen_mem h2, notSeen_mem (List.mem_cons_of_mem _ h2)]
      exact ih
    · by_cases hb : b = a
      · subst hb
        rw [notSeen_mem (List.mem_cons_self _ _), notSeen_not_mem h2]
        simp
        exact Nat.le_succ_of_le ih
      · have h1 : ¬ b ∈ a :: seen := by
          intro h
          rcases List.mem_cons.mp h with h | h
          · exact hb h
          · exact h2 h
        rw [notSeen_not_mem h1, notSeen_not_mem h2]
        simpa using ih

theorem filter_notmem_lt {l : List String} {a : String} {seen : List String}
    (ha : a ∈ l) (hns : ¬ a ∈ seen) :
    (l.filter (notSeen (a :: seen))).length < (l.filter (notSeen seen)).length := by
  induction l with
  | nil => simp at ha
  | cons b t ih =>
    rw [List.filter_cons, List.filter_cons]
    by_cases hb : b = a
    · subst hb
      rw [notSeen_mem (List.mem_cons_self _ _), notSeen_not_mem hns]
      simp
      exact Nat.lt_succ_of_le (filter_notmem_le t b seen)
    · have ha' : a ∈ t := by
        rcases List.mem_cons.mp ha with h | h
        · exact absurd h.symm hb
        · exact h
      by_cases h2 : b ∈ seen
      · rw [notSeen_mem h2, notSeen_mem (List.mem_cons_of_mem _ h2)]
        exact ih ha'
      · have h1 : ¬ b ∈ a :: seen := by
          intro h
          rcases List.mem_cons.mp h with h | h
          · exact hb h
          · exact h2 h
        rw [notSeen_not_mem h1, notSeen_not_mem h2]
        simpa using ih ha'

theorem resolve_record_fields_fuel_isSome (idx : AdaSpecIndex) :
    ∀ (fuel : Nat) (name : String) (seen : List String),
      ((idx.subtypes.map Prod.fst).filter (notSeen seen)).length < fuel →
      (idx.resolve_record_fields_fuel fuel name seen).isSome := by
  intro fuel
  induction fuel with
  | zero => intro name seen h; omega
  | succ fuel ih =>
    intro name seen h
    rw [AdaSpecIndex.resolve_record_fields_fuel]
    by_cases hk0 : idx.normalize_name name = "" ∨ idx.normalize_name name ∈ seen
    · have : (decide (idx.normalize_name name = "") ||
          decide (idx.normalize_name name ∈ seen)) = true := by
        rcases hk0 with h1 | h1 <;> simp [h1]
      simp [this]
    · push_neg at hk0
      have hcond : (decide (idx.normalize_name name = "") ||
          decide (idx.normalize_name name ∈ seen)) = false := by
        simp [hk0.1, hk0.2]
      rw [if_neg (by simp [hcond, hk0.1, hk0.2])]
      cases hrec : List.lookup (idx.normalize_name name) idx.records with
      | some f => simp
      | none =>
        cases hsub : List.lookup (idx.normalize_name name) idx.subtypes with
        | none => simp
        | some base_expr =>
          simp only []
          by_cases hbn : idx.normalize_name base_expr = ""
          · simp [hbn]
          · rw [if_neg hbn]
            apply ih
            have hmem := lookup_some_mem_fst hsub
            have := @filter_notmem_lt (idx.subtypes.map Prod.fst)
              (idx.normalize_name name) seen hmem hk0.2
            omega

theorem resolve_array_element_fuel_isSome (idx : AdaSpecIndex) :
    ∀ (fuel : Nat) (name : String) (seen : List String),
      ((idx.subtypes.map Prod.fst).filter (notSeen seen)).length < fuel →
      (idx.resolve_array_element_fuel fuel name seen).isSome := by
  intro fuel
  induction fuel with
  | zero => intro name seen h; omega
  | succ fuel ih =>
    intro name seen h
    rw [AdaSpecIndex.resolve_array_element_fuel]
    by_cases hk0 : idx.normalize_name name = "" ∨ idx.normalize_name name ∈ seen
    · have : (decide (idx.normalize_name name = "") ||
          decide (idx.normalize_name name ∈ seen)) = true := by
        rcases hk0 with h1 | h1 <;> simp [h1]
      simp [this]
    · push_neg at hk0
      rw [if_neg (by simp [hk0.1, hk0.2])]
      cases hrec : List.lookup (idx.normalize_name name) idx.arrays with
      | some f => simp
      | none =>
        cases hsub : List.lookup (idx.normalize_name name) idx.subtypes with
        | none => simp
        | some base_expr =>
          simp only []
          by_cases hbn : idx.normalize_name base_expr = ""
          · simp [hbn]
          · rw [if_neg hbn]
            apply ih
            have hmem := lookup_some_mem_fst hsub
            have := @filter_notmem_lt (idx.subtypes.map Prod.fst)
              (idx.normalize_name name) seen hmem hk0.2
            omega

theorem resolve_array_dimension_fuel_isSome (idx : AdaSpecIndex) :
    ∀ (fuel : Nat) (name : String) (seen : List String),
      ((idx.subtypes.map Prod.fst).filter (notSeen seen)).length < fuel →
      (idx.resolve_array_dimension_fuel fuel name seen).isSome := by
  intro fuel
  induction fuel with
  | zero => intro name seen h; omega
  | succ fuel ih =>
    intro name seen h
    rw [AdaSpecIndex.resolve_array_dimension_fuel]
    by_cases hk0 : idx.normalize_name name = "" ∨ idx.normalize_name name ∈ seen
    · have : (decide (idx.normalize_name name = "") ||
          decide (idx.normalize_name name ∈ seen)) = true := by
        rcases hk0 with h1 | h1 <;> simp [h1]
      simp [this]
    · push_neg at hk0
      rw [if_neg (by simp [hk0.1, hk0.2])]
      cases hrec : List.lookup (idx.normalize_name name) idx.array_dims with
      | some f => simp
      | none =>
        cases hsub : List.lookup (idx.normalize_name name) idx.subtypes with
        | none => simp
        | some base_expr =>
          simp only []
          by_cases hbn : idx.normalize_name base_expr = ""
          · simp [hbn]
          · rw [if_neg hbn]
            apply ih
            have hmem := lookup_some_mem_fst hsub
            have := @filter_notmem_lt (idx.subtypes.map Prod.fst)
              (idx.normalize_name name) seen hmem hk0.2
            omega

theorem resolve_enum_literals_fuel_isSome (idx : AdaSpecIndex) :
    ∀ (fuel : Nat) (name : String) (seen : List String),
      ((idx.subtypes.map Prod.fst).filter (notSeen seen)).length < fuel →
      (idx.resolve_enum_literals_fuel fuel name seen).isSome := by
  intro fuel
  induction fuel with
  | zero => intro name seen h; omega
  | succ fuel ih =>
    intro name seen h
    rw [AdaSpecIndex.resolve_enum_literals_fuel]
    by_cases hk0 : idx.normalize_name name = "" ∨ idx.normalize_name name ∈ seen
    · have : (decide (idx.normalize_name name = "") ||
          decide (idx.normalize_name name ∈ seen)) = true := by
        rcases hk0 with h1 | h1 <;> simp [h1]
      simp [this]
    · push_neg at hk0
      rw [if_neg (by simp [hk0.1, hk0.2])]
      cases hrec : List.lookup (idx.normalize_name name) idx.enums with
      | some f => simp
      | none =>
        cases hsub : List.lookup (idx.normalize_name name) idx.subtypes with
        | none => simp
        | some base_expr =>
          simp only []
          by_cases hbn : idx.normalize_name base_expr = ""
          · simp [hbn]
          · rw [if_neg hbn]
            apply ih
            have hmem := lookup_some_mem_fst hsub
            have := @filter_notmem_lt (idx.subtypes.map Prod.fst)
              (idx.normalize_name name) seen hmem hk0.2
            omega

theorem chainFuel_sufficient (idx : AdaSpecIndex) (seen : List String) :
    ((idx.subtypes.map Prod.fst).filter (notSeen seen)).length < idx.chainFuel := by
  rw [AdaSpecIndex.chainFuel]
  have h1 := List.length_filter_le (notSeen seen) (idx.subtypes.map Prod.fst)
  have h2 : (idx.subtypes.map Prod.fst).length = idx.subtypes.length :=
    List.length_map _ _
  omega

/-- A two-alias cycle (`subtype A is B; subtype B is A;`) with no concrete
declarations: the canonical cyclic-chain index. -/
def cycIdx : AdaSpecIndex :=
  { root := none, records := [], arrays := [], array_dims := [],
    enums := [], subtypes := [("A", "B"), ("B", "A")] }

end AdaMapper

open AdaMapper

/-- C5: every Declaration Index resolution operation (record fields, array
element, array dimension, enum literals) terminates on every input — the
fuel `chainFuel` the wrappers use always suffices, because each alias step
visits a fresh `subtypes` key, so cyclic chains are cut by the per-call
visited set — and returns `none`, never raising, when the normalized name
was already visited, or when the chain bottoms out at a name that has
neither a concrete declaration of the requested kind nor a subtype alias. -/
theorem C5_resolution_cycle_safe_and_total (idx : AdaSpecIndex) (name : String)
    (seen : List String) :
    ((idx.resolve_record_fields_fuel idx.chainFuel name seen).isSome ∧
     (idx.resolve_array_element_fuel idx.chainFuel name seen).isSome ∧
     (idx.resolve_array_dimension_fuel idx.chainFuel name seen).isSome ∧
     (idx.resolve_enum_literals_fuel idx.chainFuel name seen).isSome) ∧
    (idx.normalize_name name ∈ seen →
      idx.resolve_record_fields name seen = none ∧
      idx.resolve_array_element name seen = none ∧
      idx.resolve_array_dimension name seen = none ∧
      idx.resolve_enum_literals name seen = none) ∧
    (List.lookup (idx.normalize_name name) idx.subtypes = none →
      (List.lookup (idx.normalize_name name) idx.records = none →
        idx.resolve_record_fields name seen = none) ∧
      (List.lookup (idx.normalize_name name) idx.arrays = none →
        idx.resolve_array_element name seen = none) ∧
      (List.lookup (idx.normalize_name name) idx.array_dims = none →
        idx.resolve_array_dimension name seen = none) ∧
      (List.lookup (idx.normalize_name name) idx.enums = none →
        idx.resolve_enum_literals name seen = none)) := by
  refine ⟨⟨?_, ?_, ?_, ?_⟩, ?_, ?_⟩
  · exact resolve_record_fields_fuel_isSome idx _ name seen (chainFuel_sufficient idx seen)
  · exact resolve_array_element_fuel_isSome idx _ name seen (chainFuel_sufficient idx seen)
  · exact resolve_array_dimension_fuel_isSome idx _ name seen (chainFuel_sufficient idx seen)
  · exact resolve_enum_literals_fuel_isSome idx _ name seen (chainFuel_sufficient idx seen)
  · intro hmem
    have hc : (decide (idx.normalize_name name = "") ||
        decide (idx.normalize_name name ∈ seen)) = true := by simp [hmem]
    refine ⟨?_, ?_, ?_, ?_⟩ <;>
      simp [AdaSpecIndex.resolve_record_fields, AdaSpecIndex.resolve_array_element,
        AdaSpecIndex.resolve_array_dimension, AdaSpecIndex.resolve_enum_literals,
        AdaSpecIndex.chainFuel, AdaSpecIndex.resolve_record_fields_fuel,
        AdaSpecIndex.resolve_array_element_fuel, AdaSpecIndex.resolve_array_dimension_fuel,
        AdaSpecIndex.resolve_enum_literals_fuel, hmem]
  · intro hsub
    by_cases hk0 : idx.normalize_name name = "" ∨ idx.normalize_name name ∈ seen
    · refine ⟨fun _ => ?_, fun _ => ?_, fun _ => ?_, fun _ => ?_⟩ <;>
        · rcases hk0 with h1 | h1 <;>
            simp [AdaSpecIndex.resolve_record_fields, AdaSpecIndex.resolve_array_element,
              AdaSpecIndex.resolve_array_dimension, AdaSpecIndex.resolve_enum_literals,
              AdaSpecIndex.chainFuel, AdaSpecIndex.resolve_record_fields_fuel,
              AdaSpecIndex.resolve_array_element_fuel,
              AdaSpecIndex.resolve_array_dimension_fuel,
              AdaSpecIndex.resolve_enum_literals_fuel, h1]
    · push_neg at hk0
      refine ⟨fun hrec => ?_, fun harr => ?_, fun hdim => ?_, fun henu => ?_⟩ <;>
        simp [AdaSpecIndex.resolve_record_fields, AdaSpecIndex.resolve_array_element,
          AdaSpecIndex.resolve_array_dimension, AdaSpecIndex.resolve_enum_literals,
          AdaSpecIndex.chainFuel, AdaSpecIndex.resolve_record_fields_fuel,
          AdaSpecIndex.resolve_array_element_fuel, AdaSpecIndex.resolve_array_dimension_fuel,
          AdaSpecIndex.resolve_enum_literals_fuel, hk0.1, hk0.2, hsub, *]

/-- C5 witness: on the concrete cyclic index `cycIdx` (`A → B → A`) every
resolution operation returns `none` instead of looping; revisiting a seen
name returns `none`; and the wrappers' fuel suffices. -/
theorem C5_resolution_cycle_safe_and_total_witness :
    AdaSpecIndex.resolve_record_fields cycIdx "A" [] = none ∧
    AdaSpecIndex.resolve_enum_literals cycIdx "A" [] = none ∧
    (AdaSpecIndex.resolve_record_fields cycIdx "Z" ["Z"] = none ∧
      AdaSpecIndex.resolve_array_element cycIdx "Z" ["Z"] = none) ∧
    AdaSpecIndex.resolve_array_dimension cycIdx "Q" [] = none ∧
    (AdaSpecIndex.resolve_record_fields_fuel cycIdx cycIdx.chainFuel "A" []).isSome := by
  refine ⟨by decide, by decide, ?_, ?_, ?_⟩
  · have h := (C5_resolution_cycle_safe_and_total cycIdx "Z" ["Z"]).2.1 (by decide)
    exact ⟨h.1, h.2.1⟩
  · exact ((C5_resolution_cycle_safe_and_total cycIdx "Q" []).2.2 (by decide)).2.2.1
      (by decide)
  · exact (C5_resolution_cycle_safe_and_total cycIdx "A" []).1.1

namespace AdaMapper

theorem mem_dictInsert {d : List (String × String)} {k0 v : String} {e : String × String}
    (h : e ∈ dictInsert d k0 v) : e ∈ d ∨ e = (k0, v) := by
  unfold dictInsert at h
  by_cases hs : (List.lookup k0 d).isSome
  · rw [if_pos hs] at h
    rcases List.mem_map.mp h with ⟨kv, hkv, heq⟩
    by_cases hk : kv.1 = k0
    · right; rw [← heq]; simp [hk]
    · left; rw [← heq]; simpa [hk] using hkv
  · rw [if_neg hs] at h
    rcases List.mem_append.mp h with h | h
    · exact Or.inl h
    · right; simpa using h

theorem lookup_map_overwrite_isSome (d : List (String × String)) (k0 v k : String) :
    (List.lookup k (d.map (fun kv => if kv.1 = k0 then (k0, v) else kv))).isSome
      = (List.lookup k d).isSome := by
  induction d with
  | nil => rfl
  | cons a t ih =>
    by_cases hk : a.1 = k0
    · simp only [List.map_cons, if_pos hk]
      by_cases hka : k = a.1
      · have hk0 : k = k0 := hka.trans hk
        simp [List.lookup, show (k == k0) = true by simp [hk0],
          show (k == a.1) = true by simp [hka]]
      · have hk0 : ¬ k = k0 := fun h => hka (h.trans hk.symm)
        rw [List.lookup, List.lookup, show (k == k0) = false by simp [hk0],
          show (k == a.1) = false by simp [hka]]
        exact ih
    · simp only [List.map_cons, if_neg hk]
      by_cases hka : k = a.1
      · simp [List.lookup, show (k == a.1) = true by simp [hka]]
      · rw [List.lookup, List.lookup, show (k == a.1) = false by simp [hka]]
        exact ih

theorem lookup_append_single_isSome (d : List (String × String)) (k0 v k : String) :
    (List.lookup k (d ++ [(k0, v)])).isSome ↔ (k = k0 ∨ (List.lookup k d).isSome) := by
  induction d with
  | nil =>
    by_cases hk : k = k0
    · simp [List.lookup, show (k == k0) = true by simp [hk], hk]
    · simp [List.lookup, show (k == k0) = false by simp [hk], hk]
  | cons a t ih =>
    by_cases hka : k = a.1
    · simp [List.lookup, show (k == a.1) = true by simp [hka]]
    · rw [List.cons_append, List.lookup, show (k == a.1) = false by simp [hka]]
      conv_rhs => rw [List.lookup, show (k == a.1) = false by simp [hka]]
      exact ih

theorem lookup_dictInsert_isSome (d : List (String × String)) (k0 v k : String) :
    (List.lookup k (dictInsert d k0 v)).isSome ↔ (k = k0 ∨ (List.lookup k d).isSome) := by
  unfold dictInsert
  by_cases hs : (List.lookup k0 d).isSome
  · rw [if_pos hs, lookup_map_overwrite_isSome]
    constructor
    · exact fun h => Or.inr h
    · rintro (h | h)
      · rw [h]; exact hs
      · exact h
  · rw [if_neg hs]
    exact lookup_append_single_isSome d k0 v k

theorem lowerLitDict_entry {lits : List String} :
    ∀ e ∈ lowerLitDict lits, e.2 ∈ lits ∧ e.1 = pyLower e.2 := by
  have aux : ∀ (l acc : List (String × String) → Prop), True := fun _ _ => trivial
  suffices h : ∀ (l : List String) (acc : List (String × String)),
      (∀ e ∈ acc, e.2 ∈ lits ∧ e.1 = pyLower e.2) →
      (∀ n ∈ l, n ∈ lits) →
      ∀ e ∈ l.foldl (fun d n => dictInsert d (pyLower n) n) acc,
        e.2 ∈ lits ∧ e.1 = pyLower e.2 by
    intro e he
    exact h lits [] (by simp) (fun n hn => hn) e he
  intro l
  induction l with
  | nil => intro acc hacc _ e he; exact hacc e he
  | cons n rest ih =>
    intro acc hacc hl e he
    rw [List.foldl_cons] at he
    refine ih (dictInsert acc (pyLower n) n) ?_ (fun m hm => hl m (List.mem_cons_of_mem _ hm)) e he
    intro e' he'
    rcases mem_dictInsert he' with h | h
    · exact hacc e' h
    · rw [h]
      exact ⟨hl n (List.mem_cons_self _ _), rfl⟩

theorem lowerLitDict_lookup_isSome (lits : List String) (k : String) :
    (List.lookup k (lowerLitDict lits)).isSome ↔ k ∈ lits.map pyLower := by
  suffices h : ∀ (l : List String) (acc : List (String × String)),
      (List.lookup k (l.foldl (fun d n => dictInsert d (pyLower n) n) acc)).isSome ↔
        (k ∈ l.map pyLower ∨ (List.lookup k acc).isSome) by
    rw [lowerLitDict, h lits []]
    simp [List.lookup]
  intro l
  induction l with
  | nil => intro acc; simp
  | cons n rest ih =>
    intro acc
    rw [List.foldl_cons, ih, List.map_cons]
    rw [lookup_dictInsert_isSome]
    constructor
    · rintro (h | h | h)
      · exact Or.inl (List.mem_cons_of_mem _ h)
      · exact Or.inl (h ▸ List.mem_cons_self _ _)
      · exact Or.inr h
    · rintro (h | h)
      · rcases List.mem_cons.mp h with h | h
        · exact Or.inr (Or.inl h)
        · exact Or.inl h
      · exact Or.inr (Or.inr h)

theorem lowerLitDict_lookup_mem {lits : List String} {k v : String}
    (h : List.lookup k (lowerLitDict lits) = some v) : v ∈ lits :=
  (lowerLitDict_entry (k, v) (lookup_some_mem h)).1

/-- `enumArmsAux` in closed form: the arms are the resolvable source
literals in order, the missing list the unresolvable ones in order. -/
theorem enumArmsAux_eq (override dest_lookup : List (String × String))
    (q1 q2 : String → String) (fl : List String) :
    enumArmsAux override dest_lookup q1 q2 fl =
      (fl.filterMap (fun lit => (enumTarget override dest_lookup lit).map
          (fun t => "when " ++ q1 lit ++ " => " ++ q2 t)),
       fl.filter (fun lit => (enumTarget override dest_lookup lit).isNone)) := by
  induction fl with
  | nil => rfl
  | cons lit rest ih =>
    rw [enumArmsAux, ih]
    cases h : enumTarget override dest_lookup lit <;>
      simp [List.filterMap_cons, List.filter_cons, h]

theorem filterMap_all_some {α β : Type} (f : α → Option String) (g : α → String → β)
    (l : List α) (h : ∀ a ∈ l, (f a).isSome) :
    l.filterMap (fun a => (f a).map (g a)) = l.map (fun a => g a ((f a).getD "")) := by
  induction l with
  | nil => rfl
  | cons a t ih =>
    have ha := h a (List.mem_cons_self _ _)
    cases hf : f a with
    | none => rw [hf] at ha; simp at ha
    | some v =>
      rw [List.filterMap_cons, List.map_cons, hf,
        ih (fun b hb => h b (List.mem_cons_of_mem _ hb))]
      simp

/-- The source enum of the enum fixtures (casing deliberately mixed). -/
def enumFromIdx : AdaSpecIndex :=
  { root := some "Types_From", records := [], arrays := [], array_dims := [],
    enums := [("Color", ["RED", "green", "Blue"])], subtypes := [] }

/-- The destination enum of the enum fixtures. -/
def enumToIdx : AdaSpecIndex :=
  { root := some "Types_To", records := [], arrays := [], array_dims := [],
    enums := [("Colour", ["Red", "Green", "Azure"])], subtypes := [] }

/-- Enum generator fixture with a lower-cased partial override for the one
literal (`Blue`) that has no same-name destination. -/
def enumMg : MapperGenerator :=
  { provider := ⟨enumFromIdx, enumToIdx⟩, mapping_pairs := [],
    needed_array_maps := [], needed_enum_maps := [],
    enum_overrides := [(("Color", "Colour"), [("blue", "AZURE")])] }

/-- Enum generator fixture without overrides (so `Blue` is unresolvable). -/
def enumMgNoOv : MapperGenerator :=
  { provider := ⟨enumFromIdx, enumToIdx⟩, mapping_pairs := [],
    needed_array_maps := [], needed_enum_maps := [], enum_overrides := [] }

end AdaMapper

/-- C3: under a valid override table, `enum_map_body` renders exactly one
`when <source literal> => <destination literal>` arm per source literal in
source declaration order; the destination of each arm is the registered
override for that literal if one exists, else the case-insensitively
same-named destination literal; and if any source literal resolves to
neither, rendering raises an error naming every unresolved literal and
both enum type names — never falling back to positional mapping. -/
theorem C3_enum_helper_by_name_or_override
    (mg : MapperGenerator) (src_enum dst_enum : String)
    (to_enums from_enums : List String) (override : List (String × String))
    (htl : (mg.provider.get_enum_literals Dom.dto dst_enum).getD [] = to_enums)
    (hfl : (mg.provider.get_enum_literals Dom.dfrom src_enum).getD [] = from_enums)
    (hne1 : to_enums ≠ []) (hne2 : from_enums ≠ [])
    (hov : buildOverride src_enum dst_enum (lowerLitDict from_enums) (lowerLitDict to_enums)
        ((if src_enum ≠ "" && dst_enum ≠ "" then
            revLookupP mg.enum_overrides (src_enum, dst_enum)
          else none).getD []) [] = Except.ok override) :
    (∀ lit t, List.lookup lit override = some t →
        enumTarget override (lowerLitDict to_enums) lit = some t) ∧
    (∀ lit, List.lookup lit override = none →
        enumTarget override (lowerLitDict to_enums) lit =
          List.lookup (pyLower lit) (lowerLitDict to_enums)) ∧
    ((∀ lit ∈ from_enums, (enumTarget override (lowerLitDict to_enums) lit).isSome) →
      mg.enum_map_body src_enum dst_enum = Except.ok
        ("   function Map (E : Types_From." ++ src_enum ++ ") return Types_To."
          ++ dst_enum ++ " is\n     " ++ ("(case E is\n" ++ "        "
          ++ String.intercalate (",\n" ++ "        ")
            (from_enums.map (fun lit =>
              "when " ++ qualify "Types_From" ((pySplitDot src_enum).dropLast) lit
                ++ " => " ++ qualify "Types_To" ((pySplitDot dst_enum).dropLast)
                  ((enumTarget override (lowerLitDict to_enums) lit).getD "")))
          ++ "\n     )") ++ ";\n")) ∧
    (from_enums.filter (fun lit => (enumTarget override (lowerLitDict to_enums) lit).isNone)
        ≠ [] →
      mg.enum_map_body src_enum dst_enum = Except.error
        ("Enum mapping between " ++ src_enum ++ " and " ++ dst_enum
          ++ " is missing mapping for: "
          ++ String.intercalate ", "
            (from_enums.filter
              (fun lit => (enumTarget override (lowerLitDict to_enums) lit).isNone))
          ++ ". Add enum_map entries for these literals or align the enum names.")) := by
  refine ⟨?_, ?_, ?_, ?_⟩
  · intro lit t h
    simp [enumTarget, h]
  · intro lit h
    simp [enumTarget, h]
  · intro hall
    have hmiss : from_enums.filter
        (fun lit => (enumTarget override (lowerLitDict to_enums) lit).isNone) = [] := by
      rw [List.filter_eq_nil_iff]
      intro lit hlit
      have := hall lit hlit
      simp only [Option.isNone_iff_eq_none, decide_eq_true_eq]
      intro hn
      rw [hn] at this
      simp at this
    simp only [MapperGenerator.enum_map_body, htl, hfl]
    rw [if_neg (by simp [hne1, hne2]), hov]
    simp only [enumArmsAux_eq, hmiss]
    rw [if_neg (by simp)]
    rw [filterMap_all_some _ _ _ hall]
  · intro hmiss
    simp only [MapperGenerator.enum_map_body, htl, hfl]
    rw [if_neg (by simp [hne1, hne2]), hov]
    simp only [enumArmsAux_eq]
    rw [if_pos hmiss]

/-- C3 witness: on the concrete mixed-case fixture, the helper is rendered
with one arm per source literal (override used for `Blue`), and without
the override the rendering fails naming `Blue` and both enum type names. -/
theorem C3_enum_helper_by_name_or_override_witness :
    enumMg.enum_map_body "Color" "Colour" = Except.ok
      ("   function Map (E : Types_From.Color) return Types_To.Colour is\n"
        ++ "     (case E is\n        when Types_From.RED => Types_To.Red,\n"
        ++ "        when Types_From.green => Types_To.Green,\n"
        ++ "        when Types_From.Blue => Types_To.Azure\n     );\n") ∧
    enumMgNoOv.enum_map_body "Color" "Colour" = Except.error
      ("Enum mapping between Color and Colour is missing mapping for: Blue. "
        ++ "Add enum_map entries for these literals or align the enum names.") := by
  constructor
  · have h := (C3_enum_helper_by_name_or_override enumMg "Color" "Colour"
      ["Red", "Green", "Azure"] ["RED", "green", "Blue"] [("Blue", "Azure")]
      (by decide) (by decide) (by decide) (by decide) (by rfl)).2.2.1 (by decide)
    rw [h]
    rfl
  · have h := (C3_enum_helper_by_name_or_override enumMgNoOv "Color" "Colour"
      ["Red", "Green", "Azure"] ["RED", "green", "Blue"] []
      (by decide) (by decide) (by decide) (by decide) (by rfl)).2.2.2 (by decide)
    rw [h]
    rfl

namespace AdaMapper

theorem flatMap_eq_nil_iff {α β : Type} (f : α → List β) (l : List α) :
    l.flatMap f = [] ↔ ∀ a ∈ l, f a = [] := by
  induction l with
  | nil => simp
  | cons a t ih =>
    rw [List.flatMap_cons, List.append_eq_nil, ih]
    constructor
    · rintro ⟨h1, h2⟩ b hb
      rcases List.mem_cons.mp hb with h | h
      · rw [h]; exact h1
      · exact h2 b h
    · intro h
      exact ⟨h a (List.mem_cons_self _ _), fun b hb => h b (List.mem_cons_of_mem _ hb)⟩

theorem buildOverride_ok_raw {src_enum dst_enum : String}
    {src_lookup dest_lookup : List (String × String)} :
    ∀ {raw acc ov : List (String × String)},
      buildOverride src_enum dst_enum src_lookup dest_lookup raw acc = Except.ok ov →
      ∀ e ∈ raw, (List.lookup (pyLower (pyStrip e.1)) src_lookup).isSome ∧
        (List.lookup (pyLower (pyStrip e.2)) dest_lookup).isSome := by
  intro raw
  induction raw with
  | nil => intro acc ov _ e he; simp at he
  | cons rd rest ih =>
    intro acc ov h e he
    rw [buildOverride] at h
    cases hl1 : List.lookup (pyLower (pyStrip rd.1)) src_lookup with
    | none => rw [hl1] at h; simp at h
    | some v1 =>
      rw [hl1] at h
      cases hl2 : List.lookup (pyLower (pyStrip rd.2)) dest_lookup with
      | none => rw [hl2] at h; simp at h
      | some v2 =>
        rw [hl2] at h
        simp only [Option.isNone_some] at h
        rw [if_neg (by simp), if_neg (by simp)] at h
        rcases List.mem_cons.mp he with hh | hh
        · rw [hh, hl1, hl2]; exact ⟨rfl, rfl⟩
        · exact ih h e hh

theorem buildOverride_ok_mem {src_enum dst_enum : String} {sl dl : List String} :
    ∀ {raw acc ov : List (String × String)},
      buildOverride src_enum dst_enum (lowerLitDict sl) (lowerLitDict dl) raw acc
        = Except.ok ov →
      ∀ e ∈ ov, e ∈ acc ∨ (e.1 ∈ sl ∧ e.2 ∈ dl) := by
  intro raw
  induction raw with
  | nil =>
    intro acc ov h e he
    rw [buildOverride] at h
    cases h
    exact Or.inl he
  | cons rd rest ih =>
    intro acc ov h e he
    rw [buildOverride] at h
    cases hl1 : List.lookup (pyLower (pyStrip rd.1)) (lowerLitDict sl) with
    | none => rw [hl1] at h; simp at h
    | some v1 =>
      rw [hl1] at h
      cases hl2 : List.lookup (pyLower (pyStrip rd.2)) (lowerLitDict dl) with
      | none => rw [hl2] at h; simp at h
      | some v2 =>
        rw [hl2] at h
        simp only [Option.isNone_some] at h
        rw [if_neg (by simp), if_neg (by simp)] at h
        rcases ih h e he with hacc | hp
        · rcases mem_dictInsert hacc with hacc2 | heq
          · exact Or.inl hacc2
          · right
            rw [heq]
            simp only [Option.getD_some]
            exact ⟨lowerLitDict_lookup_mem hl1, lowerLitDict_lookup_mem hl2⟩
        · exact Or.inr hp

theorem buildOverride_accepts {src_enum dst_enum : String}
    {src_lookup dest_lookup : List (String × String)} :
    ∀ (raw : List (String × String)) (acc : List (String × String)),
      (∀ e ∈ raw, (List.lookup (pyLower (pyStrip e.1)) src_lookup).isSome ∧
        (List.lookup (pyLower (pyStrip e.2)) dest_lookup).isSome) →
      ∃ ov, buildOverride src_enum dst_enum src_lookup dest_lookup raw acc = Except.ok ov := by
  intro raw
  induction raw with
  | nil => intro acc _; exact ⟨acc, rfl⟩
  | cons rd rest ih =>
    intro acc h
    obtain ⟨v1, hv1⟩ := Option.isSome_iff_exists.mp (h rd (List.mem_cons_self _ _)).1
    obtain ⟨v2, hv2⟩ := Option.isSome_iff_exists.mp (h rd (List.mem_cons_self _ _)).2
    rw [buildOverride, hv1, hv2]
    simp only [Option.isNone_some]
    rw [if_neg (by simp), if_neg (by simp)]
    exact ih _ (fun e he => h e (List.mem_cons_of_mem _ he))

end AdaMapper

/-- C10: enum override tables are matched case-insensitively on both
sides.  (a) The validator accepts an override table (adds no defect) iff
every entry's key and value lower-case to a declared literal of the
respective enum; (b) helper rendering accepts a raw override table only if
every stripped key/value lower-cases to a declared literal, and every pair
of the normalized table it builds consists of schema-cased declared
literals; it accepts whenever the acceptance condition holds; (c) every
arm target resolved through the normalized table or the case-insensitive
name match is a destination literal in its declared schema casing. -/
theorem C10_enum_override_ci_and_schema_casing
    (p : RegexTypesProvider) (ctx dest_field dest_type : String)
    (source_type : Option String) (dl sl : List String)
    (emap : List (String × String))
    (hdl : enum_literals_v Dom.dto (some dest_type) p = dl)
    (hsl : enum_literals_v Dom.dfrom source_type p = sl)
    (hst : (strTruthy source_type).isSome ∧ source_type ≠ some DEFAULT_SENTINEL)
    (hdl0 : dl ≠ []) (hsl0 : sl ≠ []) :
    (validate_enum_override ctx dest_field emap dest_type source_type p = [] ↔
      ∀ e ∈ emap, pyLower e.1 ∈ sl.map pyLower ∧ pyLower e.2 ∈ dl.map pyLower) ∧
    (∀ (src_enum dst_enum : String) (raw ov : List (String × String)),
      buildOverride src_enum dst_enum (lowerLitDict sl) (lowerLitDict dl) raw []
          = Except.ok ov →
      (∀ e ∈ raw, pyLower (pyStrip e.1) ∈ sl.map pyLower ∧
        pyLower (pyStrip e.2) ∈ dl.map pyLower) ∧
      (∀ e ∈ ov, e.1 ∈ sl ∧ e.2 ∈ dl)) ∧
    (∀ (src_enum dst_enum : String) (raw : List (String × String)),
      (∀ e ∈ raw, pyLower (pyStrip e.1) ∈ sl.map pyLower ∧
        pyLower (pyStrip e.2) ∈ dl.map pyLower) →
      ∃ ov, buildOverride src_enum dst_enum (lowerLitDict sl) (lowerLitDict dl) raw []
          = Except.ok ov) ∧
    (∀ (override : List (String × String)) (lit t : String),
      (∀ e ∈ override, e.2 ∈ dl) →
      enumTarget override (lowerLitDict dl) lit = some t → t ∈ dl) := by
  refine ⟨?_, ?_, ?_, ?_⟩
  · have hc1 : (strTruthy source_type).isSome = true := hst.1
    have hc2 : decide (source_type ≠ some DEFAULT_SENTINEL) = true := by simp [hst.2]
    simp only [validate_enum_override, hdl, hc1, hc2, Bool.true_and, Bool.and_self,
      if_true]
    rw [hsl]
    rw [if_neg (by simp [hdl0, hsl0])]
    rw [flatMap_eq_nil_iff]
    constructor
    · intro h e he
      have := h e he
      constructor
      · rw [← lowerLitDict_lookup_isSome]
        by_cases hx : (List.lookup (pyLower e.1) (lowerLitDict sl)).isSome
        · exact hx
        · rw [if_pos (by simp_all)] at this
          simp at this
      · rw [← lowerLitDict_lookup_isSome]
        by_cases hx : (List.lookup (pyLower e.2) (lowerLitDict dl)).isSome
        · exact hx
        · by_cases hy : (List.lookup (pyLower e.1) (lowerLitDict sl)).isSome
          · rw [if_neg (by simp_all), if_pos (by simp_all)] at this
            simp at this
          · rw [if_pos (by simp_all)] at this
            simp at this
    · intro h e he
      have h1 := (h e he).1
      have h2 := (h e he).2
      rw [← lowerLitDict_lookup_isSome] at h1 h2
      rw [if_neg (by simp_all), if_neg (by simp_all)]
      rfl
  · intro src_enum dst_enum raw ov hok
    constructor
    · intro e he
      have := buildOverride_ok_raw hok e he
      exact ⟨(lowerLitDict_lookup_isSome sl _).mp this.1,
        (lowerLitDict_lookup_isSome dl _).mp this.2⟩
    · intro e he
      rcases buildOverride_ok_mem hok e he with h | h
      · simp at h
      · exact h
  · intro src_enum dst_enum raw hcond
    exact buildOverride_accepts raw []
      (fun e he => ⟨(lowerLitDict_lookup_isSome sl _).mpr (hcond e he).1,
        (lowerLitDict_lookup_isSome dl _).mpr (hcond e he).2⟩)
  · intro override lit t hvals htgt
    rw [enumTarget] at htgt
    cases hlo : List.lookup lit override with
    | some v =>
      rw [hlo] at htgt
      cases htgt
      exact hvals (lit, t) (lookup_some_mem hlo)
    | none =>
      rw [hlo] at htgt
      exact lowerLitDict_lookup_mem htgt

/-- C10 witness: on the mixed-case fixture, the validator accepts the
all-lower-case override entry `red → azure`, helper rendering accepts the
raw entry `blue → AZURE`, and the normalized pair it builds is the
schema-cased `(Blue, Azure)`. -/
theorem C10_enum_override_ci_and_schema_casing_witness :
    validate_enum_override "mapping 'M'" "F" [("red", "azure")] "Colour"
      (some "Color") (RegexTypesProvider.mk enumFromIdx enumToIdx) = [] ∧
    buildOverride "Color" "Colour" (lowerLitDict ["RED", "green", "Blue"])
      (lowerLitDict ["Red", "Green", "Azure"]) [("blue", "AZURE")] []
      = Except.ok [("Blue", "Azure")] ∧
    ("Blue" ∈ ["RED", "green", "Blue"] ∧ "Azure" ∈ ["Red", "Green", "Azure"]) := by
  have hmain := C10_enum_override_ci_and_schema_casing
    (RegexTypesProvider.mk enumFromIdx enumToIdx) "mapping 'M'" "F" "Colour"
    (some "Color") ["Red", "Green", "Azure"] ["RED", "green", "Blue"]
    [("red", "azure")] (by decide) (by decide) (by decide) (by decide) (by decide)
  refine ⟨hmain.1.mpr (by decide), by rfl, ?_⟩
  exact (hmain.2.1 "Color" "Colour" [("blue", "AZURE")] [("Blue", "Azure")] (by rfl)).2
    ("Blue", "Azure") (by decide)

namespace AdaMapper

/-- Source index of the record fixtures (a record holding a 1-D array). -/
def recFromIdx : AdaSpecIndex :=
  { root := some "Types_From",
    records := [("Rec_From", [("A", "Arr_From")])],
    arrays := [("Arr_From", "I32")],
    array_dims := [("Arr_From", 1)],
    enums := [], subtypes := [] }

/-- Destination index of the record fixtures. -/
def recToIdx : AdaSpecIndex :=
  { root := some "Types_To",
    records := [("Rec_To", [("A", "Arr_To")])],
    arrays := [("Arr_To", "I16")],
    array_dims := [("Arr_To", 1)],
    enums := [], subtypes := [] }

/-- Provider over the record fixtures. -/
def pRec : RegexTypesProvider := ⟨recFromIdx, recToIdx⟩

/-- A clean mapping entry over the record fixtures. -/
def entryOk : MappingEntry :=
  { name := some "Rec", from_ty := some "Rec_From", to_ty := some "Rec_To",
    fields := some [("A", FieldSpec.fstr "A")] }

/-- An entry whose destination type exists in neither kind. -/
def entryBadDest : MappingEntry :=
  { name := some "Bad", from_ty := some "Rec_From", to_ty := some "Nope",
    fields := some [("A", FieldSpec.fstr "A")] }

/-- An entry with an unresolvable plain source field reference. -/
def entryUnres : MappingEntry :=
  { name := some "Rec", from_ty := some "Rec_From", to_ty := some "Rec_To",
    fields := some [("A", FieldSpec.fstr "Zz")] }

end AdaMapper

/-- C4: validation is a per-entry concatenation — every defect of every
entry is collected and entries do not affect each other — and an entry
whose destination type is neither a record nor an enum yields exactly its
one fatal defect, suppressing the remaining checks for that entry only. -/
theorem C4_validate_collects_every_defect (p : RegexTypesProvider) :
    (∀ (es1 es2 : List MappingEntry),
      validate_mappings p (es1 ++ es2) =
        validate_mappings p es1 ++ validate_mappings p es2) ∧
    (∀ es : List MappingEntry,
      validate_mappings p es = es.flatMap (validate_mapping_entry p)) ∧
    (∀ (entry : MappingEntry) (to_raw : String),
      entry.to_ty = some to_raw → pyStrip to_raw ≠ "" →
      ((mgOf p).get_to_fields (pyStrip to_raw)).getD [] = [] →
      enum_literals_v Dom.dto (some (pyStrip to_raw)) p = [] →
      validate_mapping_entry p entry =
        [ctxOf entry ++ ": destination type '" ++ pyStrip to_raw
          ++ "' not found or is not a record in destination specs"]) := by
  refine ⟨?_, ?_, ?_⟩
  · intro es1 es2
    simp [validate_mappings]
  · intro es
    rfl
  · intro entry to_raw hto hne hrec henu
    simp only [validate_mapping_entry, hto]
    rw [if_neg hne, hrec]
    simp only [henu]
    simp

/-- C4 witness: with a bad-destination entry followed by a clean entry, the
run reports exactly the one fatal defect of the bad entry and nothing for
the clean one. -/
theorem C4_validate_collects_every_defect_witness :
    validate_mappings pRec [entryBadDest, entryOk] =
      validate_mapping_entry pRec entryBadDest ++ validate_mapping_entry pRec entryOk ∧
    validate_mapping_entry pRec entryBadDest =
      ["mapping 'Bad': destination type 'Nope' not found or is not a record in destination specs"] ∧
    validate_mapping_entry pRec entryOk = [] := by
  refine ⟨?_, ?_, by decide⟩
  · have h := (C4_validate_collects_every_defect pRec).1 [entryBadDest] [entryOk]
    rw [show ([entryBadDest, entryOk] : List MappingEntry) = [entryBadDest] ++ [entryOk]
      from rfl, h]
    simp [validate_mappings]
  · have h := (C4_validate_collects_every_defect pRec).2.2 entryBadDest "Nope"
      rfl (by decide) (by decide) (by decide)
    rw [h]
    rfl

namespace AdaMapper

theorem strip_core_idem (l : List Char) :
    List.rdropWhile pyIsSpace
        ((List.rdropWhile pyIsSpace (l.dropWhile pyIsSpace)).dropWhile pyIsSpace)
      = List.rdropWhile pyIsSpace (l.dropWhile pyIsSpace) := by
  set y := l.dropWhile pyIsSpace with hy
  have hyidem : y.dropWhile pyIsSpace = y := List.dropWhile_idempotent pyIsSpace l
  have hdr : (List.rdropWhile pyIsSpace y).dropWhile pyIsSpace
      = List.rdropWhile pyIsSpace y := by
    cases hrd : List.rdropWhile pyIsSpace y with
    | nil => simp
    | cons c t' =>
      obtain ⟨t, ht⟩ := List.rdropWhile_prefix pyIsSpace y
      rw [hrd] at ht
      have hc : pyIsSpace c = false := by
        have h0 := hyidem
        rw [← ht, List.cons_append] at h0
        by_contra hpc
        rw [List.dropWhile_cons, if_pos (by simpa using hpc)] at h0
        have hlen := ((@List.dropWhile_suffix _
          (t' ++ t) pyIsSpace).sublist).length_le
        rw [h0] at hlen
        simp at hlen
      rw [List.dropWhile_cons, if_neg (by simp [hc])]
  calc List.rdropWhile pyIsSpace ((List.rdropWhile pyIsSpace y).dropWhile pyIsSpace)
      = List.rdropWhile pyIsSpace (List.rdropWhile pyIsSpace y) := by rw [hdr]
    _ = List.rdropWhile pyIsSpace y := List.rdropWhile_idempotent _ _

theorem pyStrip_idem (s : String) : pyStrip (pyStrip s) = pyStrip s :=
  congrArg List.asString (strip_core_idem s.data)

theorem pyUpper_sentinel : pyUpper DEFAULT_SENTINEL = DEFAULT_SENTINEL := by decide

/-- Plain source references that resolve nowhere yield exactly the
"unknown source field" defect for that field. -/
theorem validate_field_spec_unresolved_plain
    (p : RegexTypesProvider) (ctx ft dname ref : String)
    (from_lookup dest_lookup : List (String × (String × String)))
    (dest_actual dt : String)
    (hlk : revLookup dest_lookup (pyLower dname) = some (dest_actual, dt))
    (hph : is_placeholder (pyStrip ref) = false)
    (hsen : is_default_sentinel (pyStrip ref) = false)
    (hdot : containsSub ['.'] (pyStrip ref).data = false)
    (hfl : from_lookup ≠ [])
    (hmiss : revLookup from_lookup (pyLower (pyStrip ref)) = none) :
    validate_field_spec p ctx (some ft) from_lookup dest_lookup (dname, FieldSpec.fstr ref)
      = [ctx ++ ": field '" ++ dest_actual ++ "' references unknown source field '"
          ++ pyStrip ref ++ "' in type '" ++ ft ++ "'"] := by
  simp only [validate_field_spec, hlk]
  rw [if_neg (by simp [hph]), if_neg (by simp [hsen]), if_neg (by simp [hdot]),
    if_neg (by simp [hfl])]
  have hres : resolve_source_reference (mgOf p) (pyStrip ref) ctx dest_actual
      (some ft) from_lookup =
      (none, [ctx ++ ": field '" ++ dest_actual ++ "' references unknown source field '"
        ++ pyStrip ref ++ "' in type '" ++ ft ++ "'"]) := by
    simp only [resolve_source_reference, pyStrip_idem]
    rw [if_neg (by simp [hsen]), if_neg (by simp [hdot]), if_neg (by simp [hfl]), hmiss]
    rfl
  rw [hres]
  simp [family_check, strTruthy, pyShowOpt]

/-- Dotted source paths whose walk fails yield exactly the
"unknown source path" defect for that field. -/
theorem validate_field_spec_unresolved_path
    (p : RegexTypesProvider) (ctx ft dname ref : String)
    (from_lookup dest_lookup : List (String × (String × String)))
    (dest_actual dt : String)
    (hlk : revLookup dest_lookup (pyLower dname) = some (dest_actual, dt))
    (hph : is_placeholder (pyStrip ref) = false)
    (hsen : is_default_sentinel (pyStrip ref) = false)
    (hdot : containsSub ['.'] (pyStrip ref).data = true)
    (hft : ft ≠ "") (hfts : ft ≠ DEFAULT_SENTINEL)
    (hres : (mgOf p).resolve_src_path_type ft (pyStrip ref) = none) :
    validate_field_spec p ctx (some ft) from_lookup dest_lookup (dname, FieldSpec.fstr ref)
      = [ctx ++ ": field '" ++ dest_actual ++ "' references unknown source path '"
          ++ pyStrip ref ++ "'"] := by
  simp only [validate_field_spec, hlk]
  rw [if_neg (by simp [hph]), if_neg (by simp [hsen]),
    if_neg (by simp [hdot, strTruthy, hft, hfts]), if_neg (by simp [hdot])]
  have hr : resolve_source_reference (mgOf p) (pyStrip ref) ctx dest_actual
      (some ft) from_lookup =
      (none, [ctx ++ ": field '" ++ dest_actual ++ "' references unknown source path '"
        ++ pyStrip ref ++ "'"]) := by
    simp only [resolve_source_reference, pyStrip_idem]
    rw [if_neg (by simp [hsen]), if_pos (by simp [hdot]),
      if_pos (by simp [strTruthy, hft, hfts]), show (strTruthy (some ft)).getD "" = ft
        by simp [strTruthy, hft], hres]
  rw [hr]
  simp [family_check, strTruthy]

/-- Any defect produced by the per-field check of an entry that passes the
header checks (record destination, non-sentinel record source, `fields`
object present) appears in the entry's validation output. -/
theorem validate_mapping_entry_field_mem
    (p : RegexTypesProvider) (entry : MappingEntry) (to_raw from_raw : String)
    (dest_fields from_fields : List (String × String))
    (fields_entry : List (String × FieldSpec))
    (hto : entry.to_ty = some to_raw) (hto1 : pyStrip to_raw ≠ "")
    (hdf : ((mgOf p).get_to_fields (pyStrip to_raw)).getD [] = dest_fields)
    (hdf0 : dest_fields ≠ [])
    (hfr : entry.from_ty = some from_raw) (hfr1 : pyStrip from_raw ≠ "")
    (hfr2 : is_default_sentinel from_raw = false)
    (hff : ((mgOf p).get_from_fields (pyStrip from_raw)).getD [] = from_fields)
    (hff0 : from_fields ≠ [])
    (hfe : entry.fields = some fields_entry)
    (df : String × FieldSpec) (hmem : df ∈ fields_entry) (msg : String)
    (hmsg : msg ∈ validate_field_spec p (ctxOf entry) (some (pyStrip from_raw))
      (build_lookup from_fields) (build_lookup dest_fields) df) :
    msg ∈ validate_mapping_entry p entry := by
  simp only [validate_mapping_entry, hto, hfr, hfe]
  rw [if_neg hto1, hdf]
  rw [if_neg hdf0, if_neg hfr1, if_neg (by simp [hfr2]), hff]
  simp only []
  exact List.mem_append_right _ (List.mem_flatMap.mpr ⟨df, hmem, hmsg⟩)

end AdaMapper

/-- C9: in an entry whose destination resolves to a record and whose source
type resolves to a record, every plain source reference that matches no
source field (even case-insensitively) is reported as an
"unknown source field" defect naming the reference, the source type and
the destination field, and every dotted path whose walk fails is reported
as an "unknown source path" defect naming the path and the destination
field. -/
theorem C9_unresolved_source_references_reported
    (p : RegexTypesProvider) (entry : MappingEntry) (to_raw from_raw : String)
    (dest_fields from_fields : List (String × String))
    (fields_entry : List (String × FieldSpec))
    (hto : entry.to_ty = some to_raw) (hto1 : pyStrip to_raw ≠ "")
    (hdf : ((mgOf p).get_to_fields (pyStrip to_raw)).getD [] = dest_fields)
    (hdf0 : dest_fields ≠ [])
    (hfr : entry.from_ty = some from_raw) (hfr1 : pyStrip from_raw ≠ "")
    (hfr2 : is_default_sentinel from_raw = false)
    (hff : ((mgOf p).get_from_fields (pyStrip from_raw)).getD [] = from_fields)
    (hff0 : from_fields ≠ [])
    (hfe : entry.fields = some fields_entry) :
    (∀ (dname ref dest_actual dt : String),
      (dname, FieldSpec.fstr ref) ∈ fields_entry →
      revLookup (build_lookup dest_fields) (pyLower dname) = some (dest_actual, dt) →
      is_placeholder (pyStrip ref) = false →
      is_default_sentinel (pyStrip ref) = false →
      containsSub ['.'] (pyStrip ref).data = false →
      revLookup (build_lookup from_fields) (pyLower (pyStrip ref)) = none →
      (ctxOf entry ++ ": field '" ++ dest_actual ++ "' references unknown source field '"
        ++ pyStrip ref ++ "' in type '" ++ pyStrip from_raw ++ "'")
        ∈ validate_mapping_entry p entry) ∧
    (∀ (dname ref dest_actual dt : String),
      (dname, FieldSpec.fstr ref) ∈ fields_entry →
      revLookup (build_lookup dest_fields) (pyLower dname) = some (dest_actual, dt) →
      is_placeholder (pyStrip ref) = false →
      is_default_sentinel (pyStrip ref) = false →
      containsSub ['.'] (pyStrip ref).data = true →
      (mgOf p).resolve_src_path_type (pyStrip from_raw) (pyStrip ref) = none →
      (ctxOf entry ++ ": field '" ++ dest_actual ++ "' references unknown source path '"
        ++ pyStrip ref ++ "'") ∈ validate_mapping_entry p entry) := by
  have hnotsent : pyStrip from_raw ≠ DEFAULT_SENTINEL := by
    intro h
    rw [is_default_sentinel, h, pyUpper_sentinel] at hfr2
    simp at hfr2
  constructor
  · intro dname ref dest_actual dt hmem hlk hph hsen hdot hmiss
    refine validate_mapping_entry_field_mem p entry to_raw from_raw dest_fields from_fields
      fields_entry hto hto1 hdf hdf0 hfr hfr1 hfr2 hff hff0 hfe
      (dname, FieldSpec.fstr ref) hmem _ ?_
    rw [validate_field_spec_unresolved_plain p (ctxOf entry) (pyStrip from_raw) dname ref
      (build_lookup from_fields) (build_lookup dest_fields) dest_actual dt hlk hph hsen hdot
      (by simp [build_lookup, hff0]) hmiss]
    exact List.mem_singleton.mpr rfl
  · intro dname ref dest_actual dt hmem hlk hph hsen hdot hres
    refine validate_mapping_entry_field_mem p entry to_raw from_raw dest_fields from_fields
      fields_entry hto hto1 hdf hdf0 hfr hfr1 hfr2 hff hff0 hfe
      (dname, FieldSpec.fstr ref) hmem _ ?_
    rw [validate_field_spec_unresolved_path p (ctxOf entry) (pyStrip from_raw) dname ref
      (build_lookup from_fields) (build_lookup dest_fields) dest_actual dt hlk hph hsen hdot
      hfr1 hnotsent hres]
    exact List.mem_singleton.mpr rfl

/-- C9 witness: the entry mapping destination field `A` to the unknown
plain name `Zz`, and one mapping it to the failing dotted path `B.C`, each
produce the defect naming the reference and the destination field. -/
theorem C9_unresolved_source_references_reported_witness :
    ("mapping 'Rec': field 'A' references unknown source field 'Zz' in type 'Rec_From'"
      ∈ validate_mapping_entry pRec entryUnres) ∧
    ("mapping 'Rec': field 'A' references unknown source path 'B.C'"
      ∈ validate_mapping_entry pRec
        { name := some "Rec", from_ty := some "Rec_From", to_ty := some "Rec_To",
          fields := some [("A", FieldSpec.fstr "B.C")] }) := by
  constructor
  · exact (C9_unresolved_source_references_reported pRec entryUnres "Rec_To" "Rec_From"
      [("A", "Arr_To")] [("A", "Arr_From")] [("A", FieldSpec.fstr "Zz")]
      rfl (by decide) (by decide) (by decide) rfl (by decide) (by decide) (by decide)
      (by decide) rfl).1 "A" "Zz" "A" "Arr_To" (by decide) (by decide) (by decide)
      (by decide) (by decide) (by decide)
  · exact (C9_unresolved_source_references_reported pRec _ "Rec_To" "Rec_From"
      [("A", "Arr_To")] [("A", "Arr_From")] [("A", FieldSpec.fstr "B.C")]
      rfl (by decide) (by decide) (by decide) rfl (by decide) (by decide) (by decide)
      (by decide) rfl).2 "A" "B.C" "A" "Arr_To" (by decide) (by decide) (by decide)
      (by decide) (by decide) (by decide)

namespace AdaMapper

theorem mem_addPair_self (l : List (String × String)) (p : String × String) :
    p ∈ addPair l p := by
  unfold addPair
  by_cases h : p ∈ l
  · rw [if_pos h]; exact h
  · rw [if_neg h]; simp

end AdaMapper

/-- C1: `value_expr` follows exactly the documented decision order:
(1) a default-sentinel source expression returns the structural default for
the destination type with the "defaulted" comment, without consulting the
source type; (2) else, if both types resolve as records, a `Map` call when
the stripped pair is a declared mapping pair, otherwise an inlined nested
aggregate; (3) else, if both resolve as arrays, the pair is added to the
array need-set and a `Map` call is emitted; (4) else, if both resolve as
enums, the pair is added to the enum need-set and a `Map` call is emitted;
(5) otherwise an explicit cast of the source expression to the destination
type name. -/
theorem C1_value_expr_decision_order
    (mg : MapperGenerator) (fuel : Nat) (dst_t src_t : Option String) (src_expr : String)
    (tf ff : List (String × String))
    (htf : ((match strTruthy dst_t with
             | some s => mg.get_to_fields s
             | none => none) : Option (List (String × String))).getD [] = tf)
    (hff : ((match strTruthy src_t with
             | some s => mg.get_from_fields s
             | none => none) : Option (List (String × String))).getD [] = ff) :
    (pyUpper (pyStrip src_expr) = DEFAULT_SENTINEL →
      mg.value_expr_fuel (fuel + 1) dst_t src_t src_expr =
        (mg.default_expr_fuel fuel dst_t []).map
          (fun r => ((r.1, some ("defaulted (" ++ DEFAULT_SENTINEL ++ ")")), mg))) ∧
    (pyUpper (pyStrip src_expr) ≠ DEFAULT_SENTINEL → tf ≠ [] → ff ≠ [] →
      (((strTruthy src_t).isSome && (strTruthy dst_t).isSome &&
          decide ((pyStrip ((strTruthy src_t).getD ""), pyStrip ((strTruthy dst_t).getD ""))
            ∈ mg.mapping_pairs)) = true →
        mg.value_expr_fuel (fuel + 1) dst_t src_t src_expr =
          some (("Map(" ++ src_expr ++ ")", none), mg)) ∧
      (((strTruthy src_t).isSome && (strTruthy dst_t).isSome &&
          decide ((pyStrip ((strTruthy src_t).getD ""), pyStrip ((strTruthy dst_t).getD ""))
            ∈ mg.mapping_pairs)) = false →
        mg.value_expr_fuel (fuel + 1) dst_t src_t src_expr =
          (value_fields_run (fun m a b c => MapperGenerator.value_expr_fuel m fuel a b c)
              ff (lowerDict ff) src_expr tf mg).map
            (fun pm => ((format_record_aggregate pm.1, none), pm.2)))) ∧
    (pyUpper (pyStrip src_expr) ≠ DEFAULT_SENTINEL → (tf = [] ∨ ff = []) →
      ∀ te fe, strTruthy (mg.to_array_elem dst_t) = some te →
        strTruthy (mg.from_array_elem src_t) = some fe →
        mg.value_expr_fuel (fuel + 1) dst_t src_t src_expr =
          some (("Map(" ++ src_expr ++ ")", none),
            { mg with needed_array_maps := (addPair mg.needed_array_maps
                (((strTruthy src_t).map pyStrip).getD "",
                 ((strTruthy dst_t).map pyStrip).getD "")) }) ∧
        (((strTruthy src_t).map pyStrip).getD "", ((strTruthy dst_t).map pyStrip).getD "")
          ∈ (addPair mg.needed_array_maps
              (((strTruthy src_t).map pyStrip).getD "",
               ((strTruthy dst_t).map pyStrip).getD ""))) ∧
    (pyUpper (pyStrip src_expr) ≠ DEFAULT_SENTINEL → (tf = [] ∨ ff = []) →
      (strTruthy (mg.to_array_elem dst_t) = none ∨ strTruthy (mg.from_array_elem src_t) = none) →
      ((match strTruthy (base_type dst_t) with
        | some b => mg.provider.get_enum_literals Dom.dto b
        | none => none) : Option (List String)).getD [] ≠ [] →
      ((match strTruthy (base_type src_t) with
        | some b => mg.provider.get_enum_literals Dom.dfrom b
        | none => none) : Option (List String)).getD [] ≠ [] →
      mg.value_expr_fuel (fuel + 1) dst_t src_t src_expr =
        some (("Map(" ++ src_expr ++ ")", none),
          { mg with needed_enum_maps := (addPair mg.needed_enum_maps
              (pyStrip (src_t.getD ""), pyStrip (dst_t.getD ""))) }) ∧
      (pyStrip (src_t.getD ""), pyStrip (dst_t.getD ""))
        ∈ (addPair mg.needed_enum_maps (pyStrip (src_t.getD ""), pyStrip (dst_t.getD "")))) ∧
    (pyUpper (pyStrip src_expr) ≠ DEFAULT_SENTINEL → (tf = [] ∨ ff = []) →
      (strTruthy (mg.to_array_elem dst_t) = none ∨ strTruthy (mg.from_array_elem src_t) = none) →
      (((match strTruthy (base_type dst_t) with
         | some b => mg.provider.get_enum_literals Dom.dto b
         | none => none) : Option (List String)).getD [] = [] ∨
       ((match strTruthy (base_type src_t) with
         | some b => mg.provider.get_enum_literals Dom.dfrom b
         | none => none) : Option (List String)).getD [] = []) →
      ∀ s, dst_t = some s → s ≠ "" →
        mg.value_expr_fuel (fuel + 1) dst_t src_t src_expr =
          some (((match strTruthy (base_type (some s)) with
                  | some b => b
                  | none => s) ++ " (" ++ src_expr ++ ")", none), mg)) := by
  refine ⟨?_, ?_, ?_, ?_, ?_⟩
  · intro h
    simp only [MapperGenerator.value_expr_fuel]
    rw [if_pos h]
  · intro hs htf0 hff0
    constructor
    · intro hpair
      simp only [MapperGenerator.value_expr_fuel]
      rw [if_neg hs, if_pos (by simp only [htf, hff]; simp [htf0, hff0]), if_pos hpair]
    · intro hpair
      simp only [MapperGenerator.value_expr_fuel]
      rw [if_neg hs, if_pos (by simp only [htf, hff]; simp [htf0, hff0]), if_neg (by simp [hpair])]
      rw [htf, hff]
      cases hrun : value_fields_run (fun m a b c => MapperGenerator.value_expr_fuel m fuel a b c)
          ff (lowerDict ff) src_expr tf mg with
      | none => simp
      | some pm => simp
  · intro hs hempty te fe hte hfe
    have harr : ¬ (((match strTruthy dst_t with
        | some s => mg.get_to_fields s
        | none => none) : Option (List (String × String))).getD [] ≠ [] ∧
        ((match strTruthy src_t with
        | some s => mg.get_from_fields s
        | none => none) : Option (List (String × String))).getD [] ≠ []) := by
      rw [htf, hff]
      rcases hempty with h | h <;> simp [h]
    constructor
    · simp only [MapperGenerator.value_expr_fuel]
      rw [if_neg hs, if_neg (by simp only [htf, hff]; rcases hempty with h | h <;> simp [h]),
        hte, hfe]
    · exact mem_addPair_self _ _
  · intro hs hempty harrne hde hse
    constructor
    · simp only [MapperGenerator.value_expr_fuel]
      rw [if_neg hs, if_neg (by simp only [htf, hff]; rcases hempty with h | h <;> simp [h])]
      rcases harrne with h | h
      · rw [h]
        cases strTruthy (mg.from_array_elem src_t) <;>
          · rw [if_pos (by simp [hde, hse])]
      · rw [h]
        cases strTruthy (mg.to_array_elem dst_t) <;>
          · rw [if_pos (by simp [hde, hse])]
    · exact mem_addPair_self _ _
  · intro hs hempty harrne henu s hdst hs0
    simp only [MapperGenerator.value_expr_fuel]
    rw [if_neg hs, if_neg (by simp only [htf, hff]; rcases hempty with h | h <;> simp [h])]
    subst hdst
    have hcast : (strTruthy (match strTruthy (base_type (some s)) with
        | some b => some b
        | none => some s)) = some (match strTruthy (base_type (some s)) with
        | some b => b
        | none => s) := by
      cases hb : strTruthy (base_type (some s)) with
      | some b =>
        have hbne : b ≠ "" := by
          rw [strTruthy.eq_def] at hb
          cases hbb : base_type (some s) with
          | none => rw [hbb] at hb; exact absurd hb (by simp)
          | some b2 =>
            rw [hbb] at hb
            by_cases hb2 : b2 = ""
            · simp [hb2] at hb
            · simp [hb2] at hb
              rw [← hb]
              exact hb2
        simp [strTruthy, hbne]
      | none => simp [strTruthy, hs0]
    rcases harrne with h | h
    · rw [h]
      cases strTruthy (mg.from_array_elem src_t) <;>
        · rw [if_neg (by rcases henu with he | he <;> simp [he]), hcast]
    · rw [h]
      cases strTruthy (mg.to_array_elem (some s)) <;>
        · rw [if_neg (by rcases henu with he | he <;> simp [he]), hcast]

namespace AdaMapper

/-- Source index exercising every `value_expr` branch. -/
def c1FromIdx : AdaSpecIndex :=
  { root := some "Types_From",
    records := [("Rec_From", [("A", "Arr_From")]), ("Inner_From", [("X", "I32")])],
    arrays := [("Arr_From", "I32")], array_dims := [("Arr_From", 1)],
    enums := [("Mode_From", ["On", "Off"])], subtypes := [] }

/-- Destination index exercising every `value_expr` branch. -/
def c1ToIdx : AdaSpecIndex :=
  { root := some "Types_To",
    records := [("Rec_To", [("A", "Arr_To")]), ("Inner_To", [("X", "I16")])],
    arrays := [("Arr_To", "I16")], array_dims := [("Arr_To", 1)],
    enums := [("Mode_To", ["On", "Off"])], subtypes := [] }

/-- Generator with the `Inner` pair declared. -/
def c1Mg : MapperGenerator :=
  { provider := ⟨c1FromIdx, c1ToIdx⟩, mapping_pairs := [("Inner_From", "Inner_To")],
    needed_array_maps := [], needed_enum_maps := [], enum_overrides := [] }

/-- Same generator without any declared pair. -/
def c1MgNoPair : MapperGenerator :=
  { provider := ⟨c1FromIdx, c1ToIdx⟩, mapping_pairs := [],
    needed_array_maps := [], needed_enum_maps := [], enum_overrides := [] }

end AdaMapper

/-- C1 witness: one concrete input per branch of the decision order —
sentinel default, declared-pair delegation, inlined aggregate, array
need-set registration, enum need-set registration, scalar cast. -/
theorem C1_value_expr_decision_order_witness :
    c1Mg.value_expr_fuel (8 + 1) (some "I16") (some "I32") "__DEFAULT__"
      = some (("I16'First", some "defaulted (__DEFAULT__)"), c1Mg) ∧
    c1Mg.value_expr_fuel (8 + 1) (some "Inner_To") (some "Inner_From") "X.Inr"
      = some (("Map(X.Inr)", none), c1Mg) ∧
    c1MgNoPair.value_expr_fuel (8 + 1) (some "Inner_To") (some "Inner_From") "X.Inr"
      = some (("(\n       X => I16 (X.Inr.X)\n    )", none), c1MgNoPair) ∧
    c1Mg.value_expr_fuel (8 + 1) (some "Arr_To") (some "Arr_From") "X.A"
      = some (("Map(X.A)", none),
          { c1Mg with needed_array_maps := [("Arr_From", "Arr_To")] }) ∧
    c1Mg.value_expr_fuel (8 + 1) (some "Mode_To") (some "Mode_From") "X.M"
      = some (("Map(X.M)", none),
          { c1Mg with needed_enum_maps := [("Mode_From", "Mode_To")] }) ∧
    c1Mg.value_expr_fuel (8 + 1) (some "I16") (some "I32") "X.B"
      = some (("I16 (X.B)", none), c1Mg) := by
  refine ⟨?_, ?_, ?_, ?_, ?_, ?_⟩
  · have h := (C1_value_expr_decision_order c1Mg 8 (some "I16") (some "I32")
      "__DEFAULT__" [] [] (by rfl) (by rfl)).1 (by decide)
    rw [h]
    rfl
  · have h := ((C1_value_expr_decision_order c1Mg 8 (some "Inner_To") (some "Inner_From")
      "X.Inr" [("X", "I16")] [("X", "I32")] (by rfl) (by rfl)).2.1
      (by decide) (by decide) (by decide)).1 (by decide)
    rw [h]
    rfl
  · have h := ((C1_value_expr_decision_order c1MgNoPair 8 (some "Inner_To")
      (some "Inner_From") "X.Inr" [("X", "I16")] [("X", "I32")] (by rfl) (by rfl)).2.1
      (by decide) (by decide) (by decide)).2 (by decide)
    rw [h]
    rfl
  · have h := ((C1_value_expr_decision_order c1Mg 8 (some "Arr_To") (some "Arr_From")
      "X.A" [] [] (by rfl) (by rfl)).2.2.1 (by decide) (by decide) "I16" "I32"
      (by rfl) (by rfl)).1
    rw [h]
    rfl
  · have h := ((C1_value_expr_decision_order c1Mg 8 (some "Mode_To") (some "Mode_From")
      "X.M" [] [] (by rfl) (by rfl)).2.2.2.1 (by decide) (by decide)
      (by left; rfl) (by decide) (by decide)).1
    rw [h]
    rfl
  · have h := (C1_value_expr_decision_order c1Mg 8 (some "I16") (some "I32")
      "X.B" [] [] (by rfl) (by rfl)).2.2.2.2 (by decide) (by decide)
      (by left; rfl) (by left; rfl) "I16" rfl (by decide)
    rw [h]
    rfl

namespace AdaMapper

theorem strTruthy_some_ne {o : Option String} {b : String} (h : strTruthy o = some b) :
    b ≠ "" := by
  cases o with
  | none => simp [strTruthy] at h
  | some s =>
    by_cases hs : s = ""
    · simp [strTruthy, hs] at h
    · simp [strTruthy, hs] at h
      rw [← h]
      exact hs

/-- The scalar branch of `value_expr` on truthy type names: an explicit
cast of the source expression to the destination type name, with no state
change. -/
theorem value_expr_scalar_cast (mg : MapperGenerator) (fuel : Nat) (dt st e : String)
    (hs : pyUpper (pyStrip e) ≠ DEFAULT_SENTINEL)
    (hscal : mg.isScalarPair dt st = true) (hdt : dt ≠ "") :
    mg.value_expr_fuel (fuel + 1) (some dt) (some st) e =
      some ((castTypeStr dt ++ " (" ++ e ++ ")", none), mg) := by
  rw [MapperGenerator.isScalarPair] at hscal
  simp only [Bool.and_eq_true, Bool.or_eq_true, decide_eq_true_eq,
    Option.isNone_iff_eq_none] at hscal
  obtain ⟨⟨hrec, harr⟩, henu⟩ := hscal
  simp only [MapperGenerator.value_expr_fuel]
  rw [if_neg hs, if_neg (by rcases hrec with h | h <;> simp [h])]
  have hcast : (strTruthy (match strTruthy (base_type (some dt)) with
      | some b => some b
      | none => some dt)) = some (castTypeStr dt) := by
    rw [castTypeStr.eq_def]
    cases hb : strTruthy (base_type (some dt)) with
    | some b =>
      have hbne : b ≠ "" := strTruthy_some_ne hb
      simp [strTruthy, hbne]
    | none => simp [strTruthy, hdt]
  rcases harr with h | h
  · rw [h]
    cases strTruthy (mg.from_array_elem (some st)) <;>
      · rw [if_neg (by rcases henu with he | he <;> simp [he]), hcast]
  · rw [h]
    cases strTruthy (mg.to_array_elem (some dt)) <;>
      · rw [if_neg (by rcases henu with he | he <;> simp [he]), hcast]

end AdaMapper

/-- C8: in the inlined record aggregate of `value_expr`, a destination
field is matched to a source field first by exact name, then by
case-insensitive name; a destination field with no matching source field is
emitted as a whole-value coercion of the parent source expression to that
field's declared type; and when every destination field has an identically
named source field forming a scalar pair, the aggregate casts each field
individually — no whole-record fallback and no state change. -/
theorem C8_record_inline_matching_and_scalar_casts
    (mg : MapperGenerator) (fuel : Nat) (src_expr : String) :
    (∀ (ff from_lower : List (String × String)) (d : String),
      hasKey ff d = true → d ≠ "" → matchSourceField ff from_lower d = some d) ∧
    (∀ (ff : List (String × String)) (d s : String),
      hasKey ff d = false → revLookup (lowerDict ff) (pyLower d) = some s → s ≠ "" →
      matchSourceField ff (lowerDict ff) d = some s ∧ pyLower s = pyLower d ∧
        s ∈ ff.map Prod.fst) ∧
    (∀ (f : MapperGenerator → Option String → Option String → String →
          Option ((String × Option String) × MapperGenerator))
       (ff from_lower : List (String × String)) (d d_ftype : String)
       (rest : List (String × String)) (mg1 : MapperGenerator),
      matchSourceField ff from_lower d = none →
      value_fields_run f ff from_lower src_expr ((d, d_ftype) :: rest) mg1 =
        (value_fields_run f ff from_lower src_expr rest mg1).map
          (fun pm => ((d, d_ftype ++ " (" ++ src_expr ++ ")", none) :: pm.1, pm.2))) ∧
    (∀ (ff tf : List (String × String)),
      (∀ e ∈ tf, e.1 ≠ "" ∧ pyUpper (pyStrip (src_expr ++ "." ++ e.1)) ≠ DEFAULT_SENTINEL ∧
        ∃ sft, List.lookup e.1 ff = some sft ∧ mg.isScalarPair e.2 sft = true ∧ e.2 ≠ "") →
      value_fields_run (fun m a b c => MapperGenerator.value_expr_fuel m (fuel + 1) a b c)
          ff (lowerDict ff) src_expr tf mg =
        some (tf.map (fun e =>
          (e.1, castTypeStr e.2 ++ " (" ++ src_expr ++ "." ++ e.1 ++ ")", none)), mg)) := by
  refine ⟨?_, ?_, ?_, ?_⟩
  · intro ff from_lower d hk hd
    simp [matchSourceField, hk, strTruthy, hd]
  · intro ff d s hk hlow hs
    have hmem : (pyLower d, s) ∈ lowerDict ff := by
      have := lookup_some_mem hlow
      exact (List.mem_reverse).mp this
    rcases List.mem_map.mp hmem with ⟨kv, hkv, heq⟩
    have h1 : pyLower kv.1 = pyLower d := congrArg Prod.fst heq
    have h2 : kv.1 = s := congrArg Prod.snd heq
    refine ⟨?_, by rw [← h2, h1], by rw [← h2]; exact List.mem_map.mpr ⟨kv, hkv, rfl⟩⟩
    simp [matchSourceField, hk, hlow, strTruthy, hs]
  · intro f ff from_lower d d_ftype rest mg1 hnone
    rw [value_fields_run, hnone]
  · intro ff tf
    induction tf generalizing mg with
    | nil => intro _; rfl
    | cons e rest ih =>
      intro htf
      cases e with
      | mk d dft =>
        obtain ⟨he1, hsen, sft, hlook, hscal, he2⟩ := htf (d, dft) (List.mem_cons_self _ _)
        simp only at he1 hsen hlook hscal he2
        rw [value_fields_run]
        rw [show matchSourceField ff (lowerDict ff) d = some d by
          simp [matchSourceField, hasKey, hlook, strTruthy, he1]]
        simp only [hlook, Option.getD_some]
        rw [value_expr_scalar_cast mg fuel dft sft (src_expr ++ "." ++ d) hsen hscal he2]
        have hres := ih mg (fun b hb => htf b (List.mem_cons_of_mem _ hb))
        simp [hres, String.append_assoc]

/-- C8 witness: exact match for `X`, case-insensitive match for `x`,
whole-value fallback cast for the unmatched `Z`, and an all-scalar
identically-named record pair producing one cast per field with no
fallback. -/
theorem C8_record_inline_matching_and_scalar_casts_witness :
    matchSourceField [("X", "I32"), ("Y", "I32")] [] "X" = some "X" ∧
    matchSourceField [("X", "I32"), ("Y", "I32")]
      (lowerDict [("X", "I32"), ("Y", "I32")]) "x" = some "X" ∧
    value_fields_run (fun m a b c => MapperGenerator.value_expr_fuel m (3 + 1) a b c)
      [("X", "I32"), ("Y", "I32")] (lowerDict [("X", "I32"), ("Y", "I32")]) "X.P"
      [("Z", "I16")] c1Mg
      = some ([("Z", "I16 (X.P)", none)], c1Mg) ∧
    value_fields_run (fun m a b c => MapperGenerator.value_expr_fuel m (3 + 1) a b c)
      [("X", "I32"), ("Y", "I32")] (lowerDict [("X", "I32"), ("Y", "I32")]) "X.P"
      [("X", "I16"), ("Y", "I16")] c1Mg
      = some ([("X", "I16 (X.P.X)", none), ("Y", "I16 (X.P.Y)", none)], c1Mg) := by
  refine ⟨?_, ?_, ?_, ?_⟩
  · exact (C8_record_inline_matching_and_scalar_casts c1Mg 3 "X.P").1
      [("X", "I32"), ("Y", "I32")] [] "X" (by decide) (by decide)
  · exact ((C8_record_inline_matching_and_scalar_casts c1Mg 3 "X.P").2.1
      [("X", "I32"), ("Y", "I32")] "x" "X" (by decide) (by rfl) (by decide)).1
  · have h := (C8_record_inline_matching_and_scalar_casts c1Mg 3 "X.P").2.2.1
      (fun m a b c => MapperGenerator.value_expr_fuel m (3 + 1) a b c)
      [("X", "I32"), ("Y", "I32")] (lowerDict [("X", "I32"), ("Y", "I32")])
      "Z" "I16" [] c1Mg (by rfl)
    rw [h]
    rfl
  · have h := (C8_record_inline_matching_and_scalar_casts c1Mg 3 "X.P").2.2.2
      [("X", "I32"), ("Y", "I32")] [("X", "I16"), ("Y", "I16")] ?_
    · rw [h]
      rfl
    · intro e he
      rcases List.mem_cons.mp he with h1 | h1
      · rw [h1]
        exact ⟨by decide, by decide, "I32", by rfl, by decide, by decide⟩
      · rcases List.mem_cons.mp h1 with h2 | h2
        · rw [h2]
          exact ⟨by decide, by decide, "I32", by rfl, by decide, by decide⟩
        · simp at h2

namespace AdaMapper

/-- The source-element access expression of `array_map_body` for a given
dimension count. -/
def accessExprOf (d : Nat) : String :=
  "A" ++ (if d > 1 then "(" ++ String.intercalate ", " (idx_names.take d) ++ ")" else "(I)")

/-- 2-D array fixture, source side. -/
def gridFromIdx : AdaSpecIndex :=
  { root := some "Types_From", records := [], arrays := [("Grid_From", "I32")],
    array_dims := [("Grid_From", 2)], enums := [], subtypes := [] }

/-- 2-D array fixture, destination side. -/
def gridToIdx : AdaSpecIndex :=
  { root := some "Types_To", records := [], arrays := [("Grid_To", "I16")],
    array_dims := [("Grid_To", 2)], enums := [], subtypes := [] }

/-- Generator over the 2-D array fixture. -/
def gridMg : MapperGenerator :=
  { provider := ⟨gridFromIdx, gridToIdx⟩, mapping_pairs := [],
    needed_array_maps := [], needed_enum_maps := [], enum_overrides := [] }

end AdaMapper

/-- C6: for an array pair whose destination has declared dimension
`1 ≤ d ≤ 5`, the rendered helper is the function header around a loop nest
of exactly `d` `for` lines — index variables drawn in order from
`I, J, K, L, M`, the level-`k` loop iterating `R'Range` (level 0) or
`R'Range(k+1)` of the destination — one innermost assignment
`R(indices) := element_expr`, and `d` closing `end loop;` lines; the
element expression is a `Map` call when the element pair is a declared
conversion or a needed pair or both elements are themselves arrays, an
inlined per-field aggregate when both elements are records, and a cast of
the accessed source element otherwise. -/
theorem C6_array_helper_loop_nest
    (mg : MapperGenerator) (src_arr dst_arr se de : String) (d : Nat)
    (hse : (mg.from_array_elem (some src_arr)).getD "" = se)
    (hde : (mg.to_array_elem (some dst_arr)).getD "" = de)
    (hdim : mg.provider.get_array_dimension Dom.dto dst_arr = some d)
    (hd1 : 1 ≤ d) (hd5 : d ≤ 5) :
    (mg.array_map_body src_arr dst_arr =
      "   function Map (A : Types_From." ++ src_arr ++ ") return Types_To." ++ dst_arr
        ++ " is\n      R : Types_To." ++ dst_arr ++ ";\n   begin\n"
        ++ String.intercalate "\n"
          (array_body_lines (mg.array_elem_expr se de (accessExprOf d)) d)
        ++ "\n      return R;\n   end Map;\n") ∧
    (∀ e : String, array_body_lines e d =
      ((List.range d).map (fun lv =>
        "      " ++ strRepeat "   " lv ++ "for " ++ ((idx_names.take d).getD lv "")
          ++ " in " ++ (if lv = 0 then "R'Range" else "R'Range(" ++ toString (lv + 1) ++ ")")
          ++ " loop"))
      ++ ["      " ++ strRepeat "   " d
          ++ (if d > 1 then "R(" ++ String.intercalate ", " (idx_names.take d) ++ ")"
              else "R(I)") ++ " := " ++ e ++ ";"]
      ++ ((List.range d).reverse.map (fun lv =>
        "      " ++ strRepeat "   " lv ++ "end loop;"))) ∧
    (idx_names.take d).length = d ∧
    (∀ acc : String,
      ((se, de) ∈ mg.mapping_pairs ∨ (se, de) ∈ mg.needed_array_maps →
        mg.array_elem_expr se de acc = "Map(" ++ acc ++ ")") ∧
      (¬ ((se, de) ∈ mg.mapping_pairs ∨ (se, de) ∈ mg.needed_array_maps) →
        (if de ≠ "" then strTruthy (mg.to_array_elem (some de)) else none).isSome = true →
        (if se ≠ "" then strTruthy (mg.from_array_elem (some se)) else none).isSome = true →
        mg.array_elem_expr se de acc = "Map(" ++ acc ++ ")") ∧
      (¬ ((se, de) ∈ mg.mapping_pairs ∨ (se, de) ∈ mg.needed_array_maps) →
        ((if de ≠ "" then strTruthy (mg.to_array_elem (some de)) else none).isSome = false ∨
         (if se ≠ "" then strTruthy (mg.from_array_elem (some se)) else none).isSome = false) →
        (mg.get_to_fields de).getD [] ≠ [] → (mg.get_from_fields se).getD [] ≠ [] →
        mg.array_elem_expr se de acc =
          format_record_aggregate (((mg.get_to_fields de).getD []).map (fun dd =>
            match strTruthy (if hasKey ((mg.get_from_fields se).getD []) dd.1
                then some dd.1
                else firstCIKey ((mg.get_from_fields se).getD []) dd.1) with
            | none => (dd.1, de ++ " (" ++ acc ++ ")", none)
            | some s => (dd.1, dd.2 ++ " (" ++ acc ++ "." ++ s ++ ")", none)))) ∧
      (¬ ((se, de) ∈ mg.mapping_pairs ∨ (se, de) ∈ mg.needed_array_maps) →
        ((if de ≠ "" then strTruthy (mg.to_array_elem (some de)) else none).isSome = false ∨
         (if se ≠ "" then strTruthy (mg.from_array_elem (some se)) else none).isSome = false) →
        ((mg.get_to_fields de).getD [] = [] ∨ (mg.get_from_fields se).getD [] = []) →
        mg.array_elem_expr se de acc =
          (if de ≠ "" then de ++ " (" ++ acc ++ ")" else acc))) := by
  have htake : (idx_names.take d).length = d := by
    interval_cases d <;> rfl
  refine ⟨?_, ?_, htake, ?_⟩
  · unfold MapperGenerator.array_map_body
    rw [hse, hde, hdim]
    simp only []
    have hd0 : (if d = 0 then 1 else d) = d := by
      rw [if_neg (by omega)]
    rw [hd0]
    rfl
  · intro e
    interval_cases d <;> rfl
  · intro acc
    refine ⟨?_, ?_, ?_, ?_⟩
    · intro h
      rw [MapperGenerator.array_elem_expr, if_pos h]
    · intro h h1 h2
      rw [MapperGenerator.array_elem_expr, if_neg h, if_pos (by rw [h1, h2]; rfl)]
    · intro h h1 htf hff
      rw [MapperGenerator.array_elem_expr, if_neg h,
        if_neg (by rcases h1 with h1 | h1 <;> rw [h1] <;> simp),
        if_pos (by simp [htf, hff])]
    · intro h h1 h2
      rw [MapperGenerator.array_elem_expr, if_neg h,
        if_neg (by rcases h1 with h1 | h1 <;> rw [h1] <;> simp),
        if_neg (by rcases h2 with h2 | h2 <;> simp [h2])]

/-- C6 witness: the 1-D fixture yields exactly one loop casting elements,
and the 2-D fixture yields two nested loops over `R'Range` and
`R'Range(2)` assigning `R(I, J)`. -/
theorem C6_array_helper_loop_nest_witness :
    c1Mg.array_map_body "Arr_From" "Arr_To" =
      ("   function Map (A : Types_From.Arr_From) return Types_To.Arr_To is\n"
        ++ "      R : Types_To.Arr_To;\n   begin\n      for I in R'Range loop\n"
        ++ "         R(I) := I16 (A(I));\n      end loop;\n      return R;\n   end Map;\n") ∧
    gridMg.array_map_body "Grid_From" "Grid_To" =
      ("   function Map (A : Types_From.Grid_From) return Types_To.Grid_To is\n"
        ++ "      R : Types_To.Grid_To;\n   begin\n      for I in R'Range loop\n"
        ++ "         for J in R'Range(2) loop\n            R(I, J) := I16 (A(I, J));\n"
        ++ "         end loop;\n      end loop;\n      return R;\n   end Map;\n") := by
  constructor
  · have h := (C6_array_helper_loop_nest c1Mg "Arr_From" "Arr_To" "I32" "I16" 1
      (by rfl) (by rfl) (by rfl) (by decide) (by decide)).1
    rw [h]
    rfl
  · have h := (C6_array_helper_loop_nest gridMg "Grid_From" "Grid_To" "I32" "I16" 2
      (by rfl) (by rfl) (by rfl) (by decide) (by decide)).1
    rw [h]
    rfl

namespace AdaMapper

/-- Modelled from the spec: "records ⇒ recursively default every field and
wrap in a positional aggregate" — a positional aggregate qualified by the
type name lists the field defaults in order without field names. -/
def specPositionalAggregate (base : String) (elems : List String) : String :=
  base ++ "'(" ++ String.intercalate ", " elems ++ ")"

/-- An empty schema index. -/
def emptyIdx : AdaSpecIndex :=
  { root := none, records := [], arrays := [], array_dims := [],
    enums := [], subtypes := [] }

/-- Destination index with one record `R { F : T }` over a scalar `T`. -/
def c7ToIdx : AdaSpecIndex :=
  { root := some "Types_To", records := [("R", [("F", "T")])], arrays := [],
    array_dims := [], enums := [], subtypes := [] }

/-- Generator over the one-record destination. -/
def c7Mg : MapperGenerator :=
  { provider := ⟨emptyIdx, c7ToIdx⟩, mapping_pairs := [],
    needed_array_maps := [], needed_enum_maps := [], enum_overrides := [] }

/-- Destination index with the self-referential record `R { Next : R }`. -/
def selfToIdx : AdaSpecIndex :=
  { root := some "Types_To", records := [("R", [("Next", "R")])], arrays := [],
    array_dims := [], enums := [], subtypes := [] }

/-- Generator over the self-referential destination. -/
def selfMg : MapperGenerator :=
  { provider := ⟨emptyIdx, selfToIdx⟩, mapping_pairs := [],
    needed_array_maps := [], needed_enum_maps := [], enum_overrides := [] }

/-- The revisit branch of `default_expr`: a type already in the visited set
yields its lowest-value literal without recursing. -/
theorem default_expr_fuel_revisit (mg : MapperGenerator) (fuel : Nat) (t0 : String)
    (seen : List String) (h0 : t0 ≠ "") (h1 : pyStrip t0 ≠ "") (h2 : pyStrip t0 ∈ seen) :
    mg.default_expr_fuel (fuel + 1) (some t0) seen = some (pyStrip t0 ++ "'First", seen) := by
  simp only [MapperGenerator.default_expr_fuel]
  rw [Option.getD_some, if_neg h0, if_neg h1, if_pos h2]

/-- The record branch of `default_expr`: a non-empty field list yields a
named-association aggregate built from the per-field defaults. -/
theorem default_expr_fuel_record (mg : MapperGenerator) (fuel : Nat) (t0 : String)
    (seen : List String) (h0 : t0 ≠ "") (h1 : pyStrip t0 ≠ "") (h2 : ¬ pyStrip t0 ∈ seen)
    (bt : String) (rf : List (String × String))
    (hbt : (base_type (some (pyStrip t0))).getD "" = bt) (hbt0 : bt ≠ "")
    (hrf : (mg.get_to_fields bt).getD [] = rf) (hrf0 : rf ≠ []) :
    mg.default_expr_fuel (fuel + 1) (some t0) seen =
      (default_fields_run (fun ft sn => mg.default_expr_fuel fuel (some ft) sn) rf
          (pyStrip t0 :: seen)).map
        (fun ps => (bt ++ "'(\n         " ++ String.intercalate ",\n         " ps.1
          ++ "\n      )", ps.2)) := by
  simp only [MapperGenerator.default_expr_fuel]
  rw [Option.getD_some, if_neg h0, if_neg h1, if_neg h2, hbt, if_neg hbt0, hrf,
    if_pos hrf0]
  cases default_fields_run (fun ft sn => mg.default_expr_fuel fuel (some ft) sn) rf
      (pyStrip t0 :: seen) with
  | none => rfl
  | some ps => rfl

end AdaMapper

/-- C7 counterexample: on the record `R { F : T }` the synthesized default
is the named-association aggregate `R'( F => T'First )` (with layout
newlines), not the positional aggregate `R'(T'First)` the claim
describes. -/
theorem C7_default_positional_counterexample :
    (c7Mg.default_expr_fuel 5 (some "R") []).map Prod.fst
      = some "R'(\n         F => T'First\n      )" ∧
    (c7Mg.default_expr_fuel 5 (some "R") []).map Prod.fst
      ≠ some (specPositionalAggregate "R" ["T'First"]) := by
  constructor
  · rfl
  · intro h
    rw [show (c7Mg.default_expr_fuel 5 (some "R") []).map Prod.fst
      = some "R'(\n         F => T'First\n      )" from rfl,
      show specPositionalAggregate "R" ["T'First"] = "R'(T'First)" from rfl] at h
    exact absurd (Option.some_injective _ h) (by decide)

/-- C7 (amended): `default_expr` synthesizes, for a record, a
named-association aggregate qualified by the type name with one
`field => default` association per field in declaration order; for an
array, the element default wrapped once per destination dimension in an
`(others => ...)` constructor; for an enum, the first declared literal;
for a type name containing `access`, `null`; for any other scalar, the
type's `'First`; a type already in the per-call visited set yields its
`'First` instead of recursing, and default synthesis terminates on the
self-referential record fixture for every visited set. -/
theorem C7_default_expr_structure (mg : MapperGenerator) (fuel : Nat) (t0 : String)
    (seen : List String) (h0 : t0 ≠ "") :
    (pyStrip t0 ≠ "" → pyStrip t0 ∈ seen →
      mg.default_expr_fuel (fuel + 1) (some t0) seen
        = some (pyStrip t0 ++ "'First", seen)) ∧
    (pyStrip t0 ≠ "" → ¬ pyStrip t0 ∈ seen →
      ∀ bt rf, (base_type (some (pyStrip t0))).getD "" = bt → bt ≠ "" →
      (mg.get_to_fields bt).getD [] = rf → rf ≠ [] →
      mg.default_expr_fuel (fuel + 1) (some t0) seen =
        (default_fields_run (fun ft sn => mg.default_expr_fuel fuel (some ft) sn) rf
            (pyStrip t0 :: seen)).map
          (fun ps => (bt ++ "'(\n         " ++ String.intercalate ",\n         " ps.1
            ++ "\n      )", ps.2))) ∧
    (∀ (f : String → List String → Option (String × List String))
       (l : List (String × String)) (sn : List String)
       (ps : List String) (sn2 : List String),
      default_fields_run f l sn = some (ps, sn2) →
      ps.length = l.length ∧ ∀ pr ∈ ps.zip l, ∃ e, pr.1 = pr.2.1 ++ " => " ++ e) ∧
    (pyStrip t0 ≠ "" → ¬ pyStrip t0 ∈ seen →
      ∀ bt ae, (base_type (some (pyStrip t0))).getD "" = bt → bt ≠ "" →
      (mg.get_to_fields bt).getD [] = [] →
      (strTruthy (mg.to_array_elem (some bt))).getD "" = ae → ae ≠ "" →
      mg.default_expr_fuel (fuel + 1) (some t0) seen =
        (mg.default_expr_fuel fuel (some ae) (pyStrip t0 :: seen)).map
          (fun ed =>
            ((if pyStrip t0 ≠ bt then
                wrapOthers ((mg.provider.get_array_dimension Dom.dto bt).getD 1) ed.1
              else bt ++ "'"
                ++ wrapOthers ((mg.provider.get_array_dimension Dom.dto bt).getD 1) ed.1),
             ed.2))) ∧
    (∀ (n : Nat) (e : String),
      wrapOthers (n + 1) e = "(others => " ++ wrapOthers n e ++ ")") ∧
    (pyStrip t0 ≠ "" → ¬ pyStrip t0 ∈ seen →
      ∀ bt el, (base_type (some (pyStrip t0))).getD "" = bt → bt ≠ "" →
      (mg.get_to_fields bt).getD [] = [] →
      (strTruthy (mg.to_array_elem (some bt))).getD "" = "" →
      (mg.provider.get_enum_literals Dom.dto bt).getD [] = el → el ≠ [] →
      mg.default_expr_fuel (fuel + 1) (some t0) seen
        = some (el.headD "", pyStrip t0 :: seen)) ∧
    (pyStrip t0 ≠ "" → ¬ pyStrip t0 ∈ seen →
      ∀ bt, (base_type (some (pyStrip t0))).getD "" = bt → bt ≠ "" →
      (mg.get_to_fields bt).getD [] = [] →
      (strTruthy (mg.to_array_elem (some bt))).getD "" = "" →
      (mg.provider.get_enum_literals Dom.dto bt).getD [] = [] →
      (containsSub "access".data (pyLower bt).data = true →
        mg.default_expr_fuel (fuel + 1) (some t0) seen
          = some ("null", pyStrip t0 :: seen)) ∧
      (containsSub "access".data (pyLower bt).data = false →
        mg.default_expr_fuel (fuel + 1) (some t0) seen
          = some (bt ++ "'First", pyStrip t0 :: seen))) ∧
    (∀ sn : List String, (selfMg.default_expr_fuel (3 + 1) (some "R") sn).isSome) := by
  refine ⟨?_, ?_, ?_, ?_, ?_, ?_, ?_, ?_⟩
  · exact fun h1 h2 => default_expr_fuel_revisit mg fuel t0 seen h0 h1 h2
  · exact fun h1 h2 bt rf hbt hbt0 hrf hrf0 =>
      default_expr_fuel_record mg fuel t0 seen h0 h1 h2 bt rf hbt hbt0 hrf hrf0
  · intro f l
    induction l with
    | nil =>
      intro sn ps sn2 h
      rw [default_fields_run] at h
      cases h
      exact ⟨rfl, by simp⟩
    | cons hd tl ih =>
      intro sn ps sn2 h
      obtain ⟨fname, ftype⟩ := hd
      rw [default_fields_run] at h
      cases hf : f ftype sn with
      | none => rw [hf] at h; exact Option.noConfusion h
      | some es =>
        obtain ⟨e1, sn1⟩ := es
        rw [hf] at h
        dsimp only [] at h
        cases hrest : default_fields_run f tl sn1 with
        | none => rw [hrest] at h; exact Option.noConfusion h
        | some pr =>
          obtain ⟨ps1, sn3⟩ := pr
          rw [hrest] at h
          dsimp only [] at h
          cases h
          have hih := ih sn1 ps1 sn2 hrest
          refine ⟨by simp [hih.1], ?_⟩
          intro pp hpp
          rw [List.zip_cons_cons] at hpp
          rcases List.mem_cons.mp hpp with hh | hh
          · rw [hh]
            exact ⟨e1, rfl⟩
          · exact hih.2 pp hh
  · intro h1 h2 bt ae hbt hbt0 hrf hae hae0
    simp only [MapperGenerator.default_expr_fuel]
    rw [Option.getD_some, if_neg h0, if_neg h1, if_neg h2, hbt, if_neg hbt0, hrf,
      if_neg (by simp), hae, if_pos hae0]
    cases mg.default_expr_fuel fuel (some ae) (pyStrip t0 :: seen) with
    | none => rfl
    | some ed => rfl
  · intro n e
    induction n generalizing e with
    | zero => rfl
    | succ m ih =>
      rw [wrapOthers, ih]
      rfl
  · intro h1 h2 bt el hbt hbt0 hrf hae hel hel0
    simp only [MapperGenerator.default_expr_fuel]
    rw [Option.getD_some, if_neg h0, if_neg h1, if_neg h2, hbt, if_neg hbt0, hrf,
      if_neg (by simp), hae, if_neg (by simp), hel, if_pos hel0]
  · intro h1 h2 bt hbt hbt0 hrf hae hel
    constructor
    · intro hacc
      simp only [MapperGenerator.default_expr_fuel]
      rw [Option.getD_some, if_neg h0, if_neg h1, if_neg h2, hbt, if_neg hbt0, hrf,
        if_neg (by simp), hae, if_neg (by simp), hel, if_neg (by simp), if_pos hacc]
    · intro hacc
      simp only [MapperGenerator.default_expr_fuel]
      rw [Option.getD_some, if_neg h0, if_neg h1, if_neg h2, hbt, if_neg hbt0, hrf,
        if_neg (by simp), hae, if_neg (by simp), hel, if_neg (by simp),
        if_neg (by simp [hacc])]
  · intro sn
    by_cases hR : ("R" : String) ∈ sn
    · rw [default_expr_fuel_revisit selfMg 3 "R" sn (by decide)
        (by rw [show pyStrip "R" = "R" from rfl]; decide)
        (by rw [show pyStrip "R" = "R" from rfl]; exact hR)]
      rfl
    · rw [default_expr_fuel_record selfMg 3 "R" sn (by decide)
        (by rw [show pyStrip "R" = "R" from rfl]; decide)
        (by rw [show pyStrip "R" = "R" from rfl]; exact hR)
        "R" [("Next", "R")] (by rw [show pyStrip "R" = "R" from rfl]; rfl) (by decide)
        (by rfl) (by decide)]
      rw [show pyStrip "R" = "R" from rfl]
      rw [show default_fields_run
          (fun ft sn => selfMg.default_expr_fuel 3 (some ft) sn) [("Next", "R")]
          ("R" :: sn)
        = some (["Next => R'First"], "R" :: sn) from ?_]
      · rfl
      · rw [default_fields_run]
        rw [default_expr_fuel_revisit selfMg 2 "R" ("R" :: sn) (by decide)
          (by rw [show pyStrip "R" = "R" from rfl]; decide)
          (by rw [show pyStrip "R" = "R" from rfl]; exact List.mem_cons_self _ _)]
        dsimp only []
        rfl

/-- Witness: the revisit branch and the self-referential termination
conjunct at concrete inputs. -/
theorem C7_default_expr_structure_witness :
    ("T" : String) ≠ "" ∧
    c7Mg.default_expr_fuel (4 + 1) (some "T") ["T"]
      = some (pyStrip "T" ++ "'First", ["T"]) ∧
    (selfMg.default_expr_fuel (3 + 1) (some "R") []).isSome := by
  have h := C7_default_expr_structure c7Mg 4 "T" ["T"] (by decide)
  exact ⟨by decide, h.1 (by decide) (by decide), h.2.2.2.2.2.2.2 []⟩

namespace AdaMapper

/-- The cleaned element values of the source schema's array declarations:
every successful `from_array_elem` result lies in this list. -/
def fromElems (mg : MapperGenerator) : List String :=
  mg.provider.fromIdx.arrays.map (fun p => clean_reference p.2)

/-- The cleaned element values of the destination schema's array
declarations. -/
def toElems (mg : MapperGenerator) : List String :=
  mg.provider.toIdx.arrays.map (fun p => clean_reference p.2)

/-- Every pair `expand_array_pairs_transitively` can ever add lies in this
finite universe. -/
def arrayElemUniverse (mg : MapperGenerator) : List (String × String) :=
  List.product (fromElems mg) (toElems mg)

/-- A successful array-element resolution returns a cleaned value of the
index's `arrays` table. -/
theorem resolve_array_element_fuel_val (idx : AdaSpecIndex) :
    ∀ (fuel : Nat) (name : String) (seen : List String) (r : String),
      idx.resolve_array_element_fuel fuel name seen = some (some r) →
      r ∈ idx.arrays.map (fun p => clean_reference p.2) := by
  intro fuel
  induction fuel with
  | zero => intro name seen r h; exact Option.noConfusion h
  | succ fuel ih =>
    intro name seen r h
    rw [AdaSpecIndex.resolve_array_element_fuel] at h
    by_cases hk0 : idx.normalize_name name = "" ∨ idx.normalize_name name ∈ seen
    · rw [if_pos (by rcases hk0 with h1 | h1 <;> simp [h1])] at h
      simp at h
    · push_neg at hk0
      rw [if_neg (by simp [hk0.1, hk0.2])] at h
      cases hrec : List.lookup (idx.normalize_name name) idx.arrays with
      | some v =>
        rw [hrec] at h
        dsimp only [] at h
        simp only [Option.some.injEq] at h
        exact List.mem_map.mpr ⟨(idx.normalize_name name, v), lookup_some_mem hrec, h⟩
      | none =>
        rw [hrec] at h
        dsimp only [] at h
        cases hsub : List.lookup (idx.normalize_name name) idx.subtypes with
        | none => rw [hsub] at h; simp at h
        | some base_expr =>
          rw [hsub] at h
          dsimp only [] at h
          by_cases hbn : idx.normalize_name base_expr = ""
          · rw [if_pos hbn] at h; simp at h
          · rw [if_neg hbn] at h
            exact ih _ _ r h

/-- A truthy `from_array_elem` result is a cleaned source array element. -/
theorem from_array_elem_mem (mg : MapperGenerator) (x : Option String) (se : String)
    (h : strTruthy (mg.from_array_elem x) = some se) : se ∈ fromElems mg := by
  cases x with
  | none => simp [MapperGenerator.from_array_elem, strTruthy] at h
  | some t =>
    rw [MapperGenerator.from_array_elem] at h
    by_cases ht : t = ""
    · rw [if_pos ht] at h; simp [strTruthy] at h
    · rw [if_neg ht] at h
      cases hb : base_type (some t) with
      | none => rw [hb] at h; simp [strTruthy] at h
      | some b =>
        rw [hb] at h
        dsimp only [] at h
        by_cases hb0 : b = ""
        · rw [if_pos hb0] at h; simp [strTruthy] at h
        · rw [if_neg hb0] at h
          cases hg : mg.provider.get_array_element_type Dom.dfrom b with
          | none => rw [hg] at h; simp [strTruthy] at h
          | some r =>
            rw [hg] at h
            have hrs : r = se := by
              by_cases hr0 : r = ""
              · simp [strTruthy, hr0] at h
              · simpa [strTruthy, hr0] using h
            subst hrs
            have hres : mg.provider.fromIdx.resolve_array_element_fuel
                mg.provider.fromIdx.chainFuel b [] = some (some r) := by
              have hg2 : (mg.provider.fromIdx.resolve_array_element_fuel
                  mg.provider.fromIdx.chainFuel b []).join = some r := hg
              cases hx : mg.provider.fromIdx.resolve_array_element_fuel
                  mg.provider.fromIdx.chainFuel b [] with
              | none => rw [hx] at hg2; simp at hg2
              | some y => rw [hx] at hg2; simp at hg2; rw [hg2]
            exact resolve_array_element_fuel_val _ _ _ _ _ hres

/-- A truthy `to_array_elem` result is a cleaned destination array
element. -/
theorem to_array_elem_mem (mg : MapperGenerator) (x : Option String) (de : String)
    (h : strTruthy (mg.to_array_elem x) = some de) : de ∈ toElems mg := by
  cases x with
  | none => simp [MapperGenerator.to_array_elem, strTruthy] at h
  | some t =>
    rw [MapperGenerator.to_array_elem] at h
    by_cases ht : t = ""
    · rw [if_pos ht] at h; simp [strTruthy] at h
    · rw [if_neg ht] at h
      cases hb : base_type (some t) with
      | none => rw [hb] at h; simp [strTruthy] at h
      | some b =>
        rw [hb] at h
        dsimp only [] at h
        by_cases hb0 : b = ""
        · rw [if_pos hb0] at h; simp [strTruthy] at h
        · rw [if_neg hb0] at h
          cases hg : mg.provider.get_array_element_type Dom.dto b with
          | none => rw [hg] at h; simp [strTruthy] at h
          | some r =>
            rw [hg] at h
            have hrs : r = de := by
              by_cases hr0 : r = ""
              · simp [strTruthy, hr0] at h
              · simpa [strTruthy, hr0] using h
            subst hrs
            have hres : mg.provider.toIdx.resolve_array_element_fuel
                mg.provider.toIdx.chainFuel b [] = some (some r) := by
              have hg2 : (mg.provider.toIdx.resolve_array_element_fuel
                  mg.provider.toIdx.chainFuel b []).join = some r := hg
              cases hx : mg.provider.toIdx.resolve_array_element_fuel
                  mg.provider.toIdx.chainFuel b [] with
              | none => rw [hx] at hg2; simp at hg2
              | some y => rw [hx] at hg2; simp at hg2; rw [hg2]
            exact resolve_array_element_fuel_val _ _ _ _ _ hres

/-- The loop body either leaves the set unchanged or appends exactly one
new element pair, drawn from the two element types. -/
theorem expand_step_cases (mg : MapperGenerator) (acc : List (String × String))
    (sd : String × String) :
    mg.expand_step acc sd = acc ∨
    ∃ se de, strTruthy (mg.from_array_elem (some sd.1)) = some se ∧
      strTruthy (mg.to_array_elem (some sd.2)) = some de ∧
      ¬ (se, de) ∈ acc ∧ mg.expand_step acc sd = acc ++ [(se, de)] := by
  unfold MapperGenerator.expand_step
  cases hfe : strTruthy (mg.from_array_elem (some sd.1)) with
  | none =>
    cases hte : strTruthy (mg.to_array_elem (some sd.2)) with
    | none => left; rfl
    | some de => left; rfl
  | some se =>
    cases hte : strTruthy (mg.to_array_elem (some sd.2)) with
    | none => left; rfl
    | some de =>
      dsimp only []
      cases hfe2 : strTruthy (mg.from_array_elem (some se)) with
      | none =>
        cases hte2 : strTruthy (mg.to_array_elem (some de)) with
        | none => left; rfl
        | some y => left; rfl
      | some x =>
        cases hte2 : strTruthy (mg.to_array_elem (some de)) with
        | none => left; rfl
        | some y =>
          by_cases hmem : (se, de) ∈ acc
          · left; rw [if_pos hmem]
          · right; exact ⟨se, de, rfl, rfl, hmem, by rw [if_neg hmem]⟩

/-- A pass appends, to the set it started from, only element pairs from
the finite universe that were not already present. -/
theorem expand_fold_extra (mg : MapperGenerator) :
    ∀ (l : List (String × String)) (acc : List (String × String)),
      ∃ extra, l.foldl mg.expand_step acc = acc ++ extra ∧
        ∀ p ∈ extra, ¬ p ∈ acc ∧ p ∈ arrayElemUniverse mg := by
  intro l
  induction l with
  | nil => intro acc; exact ⟨[], by simp, by simp⟩
  | cons sd t ih =>
    intro acc
    rw [List.foldl_cons]
    rcases expand_step_cases mg acc sd with hs | ⟨se, de, hfe, hte, hmem, hs⟩
    · rw [hs]
      exact ih acc
    · rw [hs]
      obtain ⟨extra, hfold, hprops⟩ := ih (acc ++ [(se, de)])
      refine ⟨(se, de) :: extra, by rw [hfold, List.append_assoc]; rfl, ?_⟩
      intro p hp
      rcases List.mem_cons.mp hp with rfl | hp2
      · exact ⟨hmem, List.pair_mem_product.mpr
          ⟨from_array_elem_mem mg _ _ hfe, to_array_elem_mem mg _ _ hte⟩⟩
      · have := hprops p hp2
        exact ⟨fun hc => this.1 (List.mem_append_left _ hc), this.2⟩

/-- Membership is preserved along the fold. -/
theorem expand_fold_mono (mg : MapperGenerator) (l acc : List (String × String))
    (p : String × String) (hp : p ∈ acc) : p ∈ l.foldl mg.expand_step acc := by
  obtain ⟨extra, hfold, _⟩ := expand_fold_extra mg l acc
  rw [hfold]
  exact List.mem_append_left _ hp

/-- After one pass over a snapshot, every pair of the snapshot whose
element types are both arrays has its element pair in the result. -/
theorem expand_fold_closure (mg : MapperGenerator) :
    ∀ (l : List (String × String)) (acc : List (String × String))
      (sd : String × String), sd ∈ l →
      ∀ se de, strTruthy (mg.from_array_elem (some sd.1)) = some se →
        strTruthy (mg.to_array_elem (some sd.2)) = some de →
        (strTruthy (mg.from_array_elem (some se))).isSome = true →
        (strTruthy (mg.to_array_elem (some de))).isSome = true →
        (se, de) ∈ l.foldl mg.expand_step acc := by
  intro l
  induction l with
  | nil => intro acc sd hsd; simp at hsd
  | cons a t ih =>
    intro acc sd hsd se de hfe hte hfe2 hte2
    rw [List.foldl_cons]
    rcases List.mem_cons.mp hsd with rfl | hsd2
    · obtain ⟨x, hx⟩ := Option.isSome_iff_exists.mp hfe2
      obtain ⟨y, hy⟩ := Option.isSome_iff_exists.mp hte2
      have hstep : (se, de) ∈ mg.expand_step acc sd := by
        unfold MapperGenerator.expand_step
        rw [hfe, hte]
        dsimp only []
        rw [hx, hy]
        by_cases hmem : (se, de) ∈ acc
        · rw [if_pos hmem]; exact hmem
        · rw [if_neg hmem]
          exact List.mem_append_right _ (List.mem_singleton.mpr rfl)
      exact expand_fold_mono mg t _ _ hstep
    · exact ih _ sd hsd2 se de hfe hte hfe2 hte2

/-- A filter by a stronger predicate is strictly shorter once one list
element separates the two predicates. -/
theorem length_filter_lt_of_witness {α : Type} (l : List α) (p q : α → Bool)
    (himp : ∀ a, p a = true → q a = true) (x : α) (hx : x ∈ l)
    (hqx : q x = true) (hpx : p x = false) :
    (l.filter p).length < (l.filter q).length := by
  induction l with
  | nil => simp at hx
  | cons a t ih =>
    rw [List.filter_cons, List.filter_cons]
    rcases List.mem_cons.mp hx with rfl | hxt
    · rw [if_neg (by simp [hpx]), if_pos hqx]
      exact Nat.lt_succ_of_le
        (List.Sublist.length_le (List.monotone_filter_right t himp))
    · cases hpa : p a with
      | true =>
        rw [if_pos rfl, if_pos (himp a hpa)]
        exact Nat.succ_lt_succ (ih hxt)
      | false =>
        rw [if_neg (by simp)]
        cases hqa : q a with
        | true =>
          rw [if_pos rfl]
          exact Nat.lt_succ_of_lt (ih hxt)
        | false =>
          rw [if_neg (by simp)]
          exact ih hxt

/-- The termination measure of the closure loop: how many universe pairs
are still missing from the need-set. -/
def expandMeasure (mg : MapperGenerator) (needed : List (String × String)) : Nat :=
  ((arrayElemUniverse mg).filter (fun u => decide (¬ u ∈ needed))).length

/-- A pass that changes the need-set strictly shrinks the measure. -/
theorem expand_pass_measure (mg : MapperGenerator) (needed : List (String × String))
    (hne : mg.expand_pass needed ≠ needed) :
    expandMeasure mg (mg.expand_pass needed) < expandMeasure mg needed := by
  obtain ⟨extra, hfold, hprops⟩ := expand_fold_extra mg needed needed
  have hpass : mg.expand_pass needed = needed ++ extra := hfold
  cases extra with
  | nil => exact absurd (by rw [hpass]; simp) hne
  | cons w ext =>
    have hw := hprops w (List.mem_cons_self _ _)
    apply length_filter_lt_of_witness (arrayElemUniverse mg) _ _ ?_ w hw.2
    · simp [hw.1]
    · have hwin : w ∈ mg.expand_pass needed := by
        rw [hpass]
        exact List.mem_append_right _ (List.mem_cons_self _ _)
      simp [hwin]
    · intro u hu
      simp only [decide_eq_true_eq] at hu ⊢
      intro hc
      exact hu (by rw [hpass]; exact List.mem_append_left _ hc)

/-- Unfolding of one loop iteration. -/
theorem expand_loop_succ (mg : MapperGenerator) (f : Nat)
    (needed : List (String × String)) :
    mg.expand_loop (f + 1) needed =
      if mg.expand_pass needed = needed then needed
      else mg.expand_loop f (mg.expand_pass needed) := rfl

/-- With fuel above the measure, the loop's result is a fixpoint of the
pass. -/
theorem expand_loop_fix (mg : MapperGenerator) :
    ∀ (fuel : Nat) (needed : List (String × String)),
      expandMeasure mg needed < fuel →
      mg.expand_pass (mg.expand_loop fuel needed) = mg.expand_loop fuel needed := by
  intro fuel
  induction fuel with
  | zero => intro needed h; omega
  | succ f ih =>
    intro needed h
    rw [expand_loop_succ]
    by_cases hfix : mg.expand_pass needed = needed
    · rw [if_pos hfix]; exact hfix
    · rw [if_neg hfix]
      exact ih _ (Nat.lt_of_lt_of_le (expand_pass_measure mg needed hfix)
        (Nat.lt_succ_iff.mp h))

/-- The measure is always below `expandFuel`. -/
theorem expandMeasure_lt_fuel (mg : MapperGenerator)
    (needed : List (String × String)) :
    expandMeasure mg needed < mg.expandFuel := by
  have h1 : expandMeasure mg needed ≤ (arrayElemUniverse mg).length :=
    List.length_filter_le _ _
  have h2 : (arrayElemUniverse mg).length
      = (fromElems mg).length * (toElems mg).length :=
    List.length_product _ _
  have h3 : (fromElems mg).length = mg.provider.fromIdx.arrays.length :=
    List.length_map _ _
  have h4 : (toElems mg).length = mg.provider.toIdx.arrays.length :=
    List.length_map _ _
  rw [h3, h4] at h2
  rw [MapperGenerator.expandFuel]
  omega

/-- Modelled from the spec: "repeatedly scan the array need-set; for any
pair whose element types are *also* a valid array-or-record pair, add the
element pair to the need-set, until a full pass adds nothing" — the
closure this describes: every pair of the need-set whose element types
form a valid array pair (both arrays) or a valid record pair (both
records) has its element pair in the need-set. -/
def specNeedSetClosed (mg : MapperGenerator)
    (needed : List (String × String)) : Bool :=
  needed.all fun sd =>
    match strTruthy (mg.from_array_elem (some sd.1)),
          strTruthy (mg.to_array_elem (some sd.2)) with
    | some se, some de =>
      if ((strTruthy (mg.from_array_elem (some se))).isSome
            && (strTruthy (mg.to_array_elem (some de))).isSome)
          || (decide ((mg.get_from_fields se).getD [] ≠ [])
            && decide ((mg.get_to_fields de).getD [] ≠ [])) then
        decide ((se, de) ∈ needed)
      else true
    | _, _ => true

/-- Source index for a 3-level nest: array `A2` of array `A1` of record
`R`. -/
def c2aFromIdx : AdaSpecIndex :=
  { root := some "Types_From", records := [("R", [("F", "T")])],
    arrays := [("A2", "A1"), ("A1", "R")], array_dims := [],
    enums := [], subtypes := [] }

/-- Destination index for the 3-level nest: array `B2` of array `B1` of
record `S`. -/
def c2aToIdx : AdaSpecIndex :=
  { root := some "Types_To", records := [("S", [("F", "U")])],
    arrays := [("B2", "B1"), ("B1", "S")], array_dims := [],
    enums := [], subtypes := [] }

/-- Generator over the 3-level nest whose need-set starts with the
outermost pair. -/
def c2aMg : MapperGenerator :=
  { provider := ⟨c2aFromIdx, c2aToIdx⟩, mapping_pairs := [],
    needed_array_maps := [("A2", "B2")], needed_enum_maps := [],
    enum_overrides := [] }

end AdaMapper

/-- C2 counterexample: on the 3-level nest (array of array of record) the
pair `(A1, B1)` reaches the need-set and its element types `(R, S)` form a
valid record pair, yet `expand_array_pairs_transitively` never adds
`(R, S)`: the spec's array-or-record closure (`specNeedSetClosed`) fails
on the expanded need-set. -/
theorem C2_spec_closure_counterexample :
    ("A1", "B1") ∈ (c2aMg.expand_array_pairs_transitively).needed_array_maps ∧
    strTruthy (c2aMg.from_array_elem (some "A1")) = some "R" ∧
    strTruthy (c2aMg.to_array_elem (some "B1")) = some "S" ∧
    (c2aMg.get_from_fields "R").getD [] ≠ [] ∧
    (c2aMg.get_to_fields "S").getD [] ≠ [] ∧
    ¬ ("R", "S") ∈ (c2aMg.expand_array_pairs_transitively).needed_array_maps ∧
    specNeedSetClosed c2aMg
      (c2aMg.expand_array_pairs_transitively).needed_array_maps = false := by
  decide

/-- C2 (amended): after `expand_array_pairs_transitively` returns, the
array need-set is closed for array element pairs only: for every pair in
the need-set whose element types are themselves both arrays, the element
pair is in the need-set.  Element pairs that resolve as records are never
added (they are inlined instead), so on the 3-level nest the expansion
adds exactly the second-level array pair. -/
theorem C2_array_need_set_closure (mg : MapperGenerator) :
    (∀ sd ∈ (mg.expand_array_pairs_transitively).needed_array_maps,
      ∀ se de, strTruthy (mg.from_array_elem (some sd.1)) = some se →
        strTruthy (mg.to_array_elem (some sd.2)) = some de →
        (strTruthy (mg.from_array_elem (some se))).isSome = true →
        (strTruthy (mg.to_array_elem (some de))).isSome = true →
        (se, de) ∈ (mg.expand_array_pairs_transitively).needed_array_maps) ∧
    (c2aMg.expand_array_pairs_transitively).needed_array_maps
      = [("A2", "B2"), ("A1", "B1")] := by
  constructor
  · intro sd hsd se de hfe hte hfe2 hte2
    have hfix := expand_loop_fix mg mg.expandFuel mg.needed_array_maps
      (expandMeasure_lt_fuel mg mg.needed_array_maps)
    have heq : (mg.expand_array_pairs_transitively).needed_array_maps
        = mg.expand_loop mg.expandFuel mg.needed_array_maps := rfl
    rw [heq] at hsd ⊢
    rw [MapperGenerator.expand_pass] at hfix
    rw [← hfix]
    exact expand_fold_closure mg _ _ sd hsd se de hfe hte hfe2 hte2
  · decide

/-- Witness: on the 3-level nest, the outermost pair's element pair
`(A1, B1)` is in the expanded need-set. -/
theorem C2_array_need_set_closure_witness :
    ("A1", "B1") ∈ (c2aMg.expand_array_pairs_transitively).needed_array_maps :=
  (C2_array_need_set_closure c2aMg).1 ("A2", "B2") (by decide) "A1" "B1"
    (by decide) (by decide) (by decide) (by decide)

namespace AdaMapper

end AdaMapper
